import Mathlib

/-!
Shallow embedding of the RESP wire codec, command model, replication
accounting, and stream data type of the `redis-challenge` server
(`src/resp.rs`, `src/command/mod.rs`, `src/connection.rs`, `src/replica.rs`,
`src/data/stream.rs`), together with theorems settling the spec claims.

Bytes are modelled as `Char` (one `Char` per byte); Rust `String`/`Cow<str>`
payloads are Lean `String`s, and `from_utf8` is the identity (its failure on
non-UTF-8 bytes is not reachable from the frames the claims quantify over).
Rust `i64`/`isize` are modelled as `Int` and `usize` as `Nat`.  Rust panics
(`todo!()`, `unwrap()` on `None`, out-of-bounds indexing/slicing, and
`ilog10` on a non-positive argument, which panics unconditionally) are
modelled by an explicit `crash` outcome.
-/

/-- The byte pair `b"\r\n"` (`CTRLF` in `src/resp.rs`). -/
def CTRLF : List Char := ['\r', '\n']

/-- Little-endian base-10 digits, computed with explicit fuel so that it is
structural.  `decDigits n` agrees with `Nat.digits 10 n`. -/
def decDigitsAux : Nat → Nat → List Nat
  | 0, _ => []
  | fuel + 1, n => if n = 0 then [] else (n % 10) :: decDigitsAux fuel (n / 10)

/-- Little-endian base-10 digits of `n` (empty for `n = 0`). -/
def decDigits (n : Nat) : List Nat := decDigitsAux n n

/-- The character for the decimal digit `d < 10`. -/
def digitChar (d : Nat) : Char := Char.ofNat (48 + d)

/-- Decimal rendering of a natural number, most significant digit first,
as Rust's `format!("{}", n)` produces for unsigned integers. -/
def natToDec (n : Nat) : List Char :=
  if n = 0 then ['0'] else (decDigits n).reverse.map digitChar

/-- Decimal rendering of a signed integer, as Rust's `format!("{i}")`. -/
def intToDec (i : Int) : List Char :=
  if i < 0 then '-' :: natToDec i.natAbs else natToDec i.toNat

/-- `num_digits` from `src/resp.rs` lines 12-20: `1` for `0`, otherwise
`ilog10(|n|) + 1`, which is the number of decimal digits of `|n|`. -/
def num_digits (n : Int) : Nat :=
  if n = 0 then 1 else (decDigits n.natAbs).length

/-- Rust's `u.ilog10()` on a positive argument: one less than the number of
decimal digits. -/
def ilog10 (n : Nat) : Nat := (decDigits n).length - 1

/-- Whether `c` is an ASCII decimal digit. -/
def isDigitCh (c : Char) : Bool := 48 ≤ c.toNat && c.toNat ≤ 57

/-- Digit value of an ASCII character. -/
def chVal (c : Char) : Nat := c.toNat - 48

/-- Parse an unsigned decimal numeral: every character must be a digit and
the input must be nonempty, as in Rust's `str::parse` for unsigned types
(sign handling is done by `parseDecInt`). -/
def parseDecCore (l : List Char) : Option Nat :=
  if l.isEmpty then none
  else if l.all isDigitCh then some (l.foldl (fun a c => a * 10 + chVal c) 0)
  else none

/-- Rust `str::parse::<usize>`: an optional leading `+` then digits. -/
def parseDecNat (l : List Char) : Option Nat :=
  match l with
  | c :: rest => if c = '+' then parseDecCore rest else parseDecCore l
  | [] => parseDecCore l

/-- Rust `str::parse` for signed integer types: optional `+`/`-` sign then
digits (the fixed-width overflow check is not modelled; the claims never
exercise it). -/
def parseDecInt (l : List Char) : Option Int :=
  match l with
  | c :: rest =>
      if c = '+' then (parseDecCore rest).map (fun (n : Nat) => (n : Int))
      else if c = '-' then (parseDecCore rest).map (fun (n : Nat) => -(n : Int))
      else (parseDecCore l).map (fun (n : Nat) => (n : Int))
  | [] => (parseDecCore l).map (fun (n : Nat) => (n : Int))

/-- Rust `i as usize` for `i : isize`: the identity on non-negative values
and two's-complement wrapping (`i + 2^64`, i.e. `i mod 2^64`) on negative
ones. -/
def usizeOf (i : Int) : Nat := if i < 0 then (i % (2 ^ 64)).toNat else i.toNat

/-- Index of the first occurrence of `c`, as `iter().position(|b| b == c)`. -/
def posOf (c : Char) : List Char → Option Nat
  | [] => none
  | x :: xs => if x = c then some 0 else (posOf c xs).map (· + 1)

/-- Rust slice indexing `l.get(a..b)`: `some` of the slice when the range is
valid, `none` otherwise. -/
def sliceGet (l : List Char) (a b : Nat) : Option (List Char) :=
  if a ≤ b ∧ b ≤ l.length then some ((l.drop a).take (b - a)) else none

/-- Rust `slice::split` on the byte `\n`: the chunks between newlines,
including a final (possibly empty) chunk. -/
def splitNL : List Char → List (List Char)
  | [] => [[]]
  | c :: rest =>
      if c = '\n' then [] :: splitNL rest
      else
        match splitNL rest with
        | h :: t => (c :: h) :: t
        | [] => [[c]]

/-- Rust `line.strip_suffix(&[0xD]).unwrap_or(line)`: drop one trailing
`\r` if present. -/
def stripCR (l : List Char) : List Char :=
  if l.getLast? = some '\r' then l.dropLast else l

/-- Rust `str::split_once(sep)`: split at the first occurrence of `sep`. -/
def splitOnce (sep : Char) : List Char → Option (List Char × List Char)
  | [] => none
  | c :: rest =>
      if c = sep then some ([], rest)
      else (splitOnce sep rest).map (fun p => (c :: p.1, p.2))

/-- The `Resp` frame type from `src/resp.rs` lines 24-34 (`Cow` payloads are
plain `String`s; there is no separate null variant — the empty `BulkString`
doubles as null, see `encode`). -/
inductive Resp where
  | simpleString (s : String)
  | simpleError (s : String)
  | integer (i : Int)
  | bulkString (s : String)
  | array (xs : List Resp)

/-- `RespError` from `src/resp.rs` lines 36-55, plus `crash`, which models a
Rust panic (`todo!()`, `unwrap()` on `None`, out-of-bounds slicing, `ilog10`
of a non-positive number). -/
inductive RespErr where
  | utfError
  | unsupportedType (c : Char)
  | notAnInteger
  | noCtrlf
  | notEnoughtParts
  | dataTypeIsNotSupported (s : String)
  | crash
deriving DecidableEq

mutual

def Resp.beq : Resp → Resp → Bool
  | .simpleString a, .simpleString b => a == b
  | .simpleError a, .simpleError b => a == b
  | .integer a, .integer b => a == b
  | .bulkString a, .bulkString b => a == b
  | .array xs, .array ys => Resp.beqList xs ys
  | _, _ => false

def Resp.beqList : List Resp → List Resp → Bool
  | [], [] => true
  | x :: xs, y :: ys => Resp.beq x y && Resp.beqList xs ys
  | _, _ => false

end

mutual

theorem Resp.beq_iff : ∀ a b : Resp, (Resp.beq a b = true) ↔ a = b
  | .simpleString x, b => by cases b <;> simp [Resp.beq]
  | .simpleError x, b => by cases b <;> simp [Resp.beq]
  | .integer x, b => by cases b <;> simp [Resp.beq]
  | .bulkString x, b => by cases b <;> simp [Resp.beq]
  | .array xs, b => by
      cases b <;> simp [Resp.beq]
      exact Resp.beqList_iff xs _

theorem Resp.beqList_iff : ∀ xs ys : List Resp, (Resp.beqList xs ys = true) ↔ xs = ys
  | [], ys => by cases ys <;> simp [Resp.beqList]
  | x :: xs, ys => by
      cases ys with
      | nil => simp [Resp.beqList]
      | cons y ys =>
          simp [Resp.beqList, Bool.and_eq_true, Resp.beq_iff x y, Resp.beqList_iff xs ys]

end

instance : DecidableEq Resp := fun a b => decidable_of_iff _ (Resp.beq_iff a b)

mutual

/-- `Resp::encode` from `src/resp.rs` lines 174-211.  Note the empty
`BulkString` emits the 5-byte null form `$-1\r\n`, with no payload and no
trailing CRLF. -/
def Resp.encode : Resp → List Char
  | .simpleString s => '+' :: (s.data ++ CTRLF)
  | .simpleError s => '-' :: (s.data ++ CTRLF)
  | .integer i => ':' :: (intToDec i ++ CTRLF)
  | .bulkString s =>
      '$' :: ((if s.data.isEmpty then intToDec (-1) else natToDec s.data.length)
        ++ CTRLF ++ s.data ++ (if s.data.isEmpty then [] else CTRLF))
  | .array xs => '*' :: (natToDec xs.length ++ CTRLF ++ Resp.encodeList xs)

/-- The concatenation of the encodings of the elements, as the `for` loop in
the `Array` arm of `Resp::encode`. -/
def Resp.encodeList : List Resp → List Char
  | [] => []
  | x :: xs => Resp.encode x ++ Resp.encodeList xs

end

mutual

/-- `Resp::len` from `src/resp.rs` lines 158-172. -/
def Resp.len : Resp → Nat
  | .simpleString s => s.data.length + CTRLF.length + 1
  | .simpleError s => s.data.length + CTRLF.length + 1
  | .integer i => 1 + num_digits i + (if i < 0 then 1 else 0) + CTRLF.length
  | .bulkString s =>
      1 + num_digits s.data.length + CTRLF.length + s.data.length + CTRLF.length
  | .array xs => 1 + num_digits xs.length + CTRLF.length + Resp.lenList xs

/-- The sum `vec.iter().map(|i| i.len()).sum()` in the `Array` arm of
`Resp::len`. -/
def Resp.lenList : List Resp → Nat
  | [] => 0
  | x :: xs => Resp.len x + Resp.lenList xs

end

/-- `Resp::simple_string` (`src/resp.rs` line 219). -/
def Resp.simple_string (s : String) : Resp := .simpleString s

/-- `Resp::bulk_string` (`src/resp.rs` line 223). -/
def Resp.bulk_string (s : String) : Resp := .bulkString s

/-- `Resp::expect_integer` (`src/resp.rs` lines 231-237). -/
def Resp.expect_integer : Resp → Option Int
  | .integer i => some i
  | .bulkString s => parseDecInt s.data
  | _ => none

/-- `Resp::expect_bulk_string` (`src/resp.rs` lines 239-244). -/
def Resp.expect_bulk_string : Resp → Option String
  | .bulkString s => some s
  | _ => none

/-- Shared epilogue of `Resp::parse_inner` (`src/resp.rs` lines 146-155) for
the arms that do not return early (`SimpleError`, `Integer`, and the unknown
tag byte): split the input after the first `\n` (an `unwrap` panic when
there is none) and pair the value with the remainder.  The `BulkString` and
`Array` rematches on lines 147-153 are unreachable, since those arms return
early. -/
def finishTail (input : List Char) (v : Resp) : Except RespErr (Resp × List Char) :=
  match posOf '\n' input with
  | none => .error .crash
  | some p => .ok (v, input.drop (p + 1))

mutual

/-- `Resp::parse_inner` (`src/resp.rs` lines 73-156) with explicit fuel; the
fuel only rules out infinite regress and `parse_inner` below supplies enough
for it never to run out.  Faithful to the source, including:
the index panic on an empty input (`input[0]`), the `todo!()` panic for a
`+` frame with no `\r`, the `unwrap` panics for `:` with no `\r` and for a
non-early-return arm with no `\n`, the slice panic `&input[end + 2..]` when
the `\r` of a SimpleString is the last byte, the `SimpleError` arm reading
up to `len - 2` of the *whole* input, and the `length.ilog10()` panic in the
`$` arm when the parsed length is `-1` (rewritten to `0`) or `0`. -/
def parseInnerF : Nat → List Char → Except RespErr (Resp × List Char)
  | 0, _ => .error .crash
  | _ + 1, [] => .error .crash
  | fuel + 1, input@(tag :: _) =>
      if tag = '+' then
        match posOf '\r' input with
        | some endPos =>
            match sliceGet input 1 endPos with
            | none => .error .notEnoughtParts
            | some content =>
                if endPos + 2 ≤ input.length then
                  .ok (.simpleString ⟨content⟩, input.drop (endPos + 2))
                else .error .crash
        | none => .error .crash
      else if tag = '-' then
        match (if input.length < 2 then none else sliceGet input 1 (input.length - 2)) with
        | none => .error .notEnoughtParts
        | some content => finishTail input (.simpleError ⟨content⟩)
      else if tag = ':' then
        match posOf '\r' input with
        | none => .error .crash
        | some p =>
            match sliceGet input 1 p with
            | none => .error .notEnoughtParts
            | some content =>
                match parseDecInt content with
                | none => .error .notAnInteger
                | some i => finishTail input (.integer i)
      else if tag = '$' then
        let parts := (splitNL (input.drop 1)).map stripCR
        match parts[0]? with
        | none => .error .notEnoughtParts
        | some lenChunk =>
            match parseDecInt lenChunk with
            | none => .error .notAnInteger
            | some lenRaw =>
                let length : Int := if lenRaw = -1 then 0 else lenRaw
                match parts[1]? with
                | none => .error .notEnoughtParts
                | some str =>
                    if str.length < usizeOf length then .error .notEnoughtParts
                    else if length ≤ 0 then .error .crash
                    else if 6 + usizeOf length + ilog10 length.toNat > input.length then
                      .error .notEnoughtParts
                    else
                      .ok (.bulkString ⟨str⟩,
                        input.drop (6 + usizeOf length + ilog10 length.toNat))
      else if tag = '*' then
        match posOf '\n' input with
        | none => .error .notEnoughtParts
        | some pos =>
            let lengthString := input.take (pos + 1)
            match (if lengthString.length < 2 then none
                   else sliceGet lengthString 1 (lengthString.length - 2)) with
            | none => .error .notEnoughtParts
            | some lenChunk =>
                match parseDecInt lenChunk with
                | none => .error .notAnInteger
                | some count =>
                    match parseElemsF fuel count.toNat (input.drop (pos + 1)) with
                    | .error e => .error e
                    | .ok (xs, rest) => .ok (.array xs, rest)
      else
        match posOf '\n' input with
        | none => .error .crash
        | some _ => .error (.unsupportedType tag)

/-- The `for i in 0..length` element loop of the `*` arm of
`Resp::parse_inner` (`src/resp.rs` lines 136-140); a negative `length`
yields zero iterations, which `count.toNat` reproduces. -/
def parseElemsF : Nat → Nat → List Char → Except RespErr (List Resp × List Char)
  | 0, _, _ => .error .crash
  | _ + 1, 0, rest => .ok ([], rest)
  | fuel + 1, n + 1, rest =>
      match parseInnerF fuel rest with
      | .error e => .error e
      | .ok (v, rest') =>
          match parseElemsF fuel n rest' with
          | .error e => .error e
          | .ok (vs, rest'') => .ok (v :: vs, rest'')

end

/-- `Resp::parse_inner` at the top level: the fuel `input.length + 1` is
enough for every recursive call (each recursion strictly consumes input). -/
def Resp.parse_inner (input : List Char) : Except RespErr (Resp × List Char) :=
  parseInnerF (input.length + 1) input

/-- `Resp::parse` (`src/resp.rs` lines 213-217): parse one frame and drop
the remainder. -/
def Resp.parse (input : List Char) : Except RespErr Resp :=
  (Resp.parse_inner input).map (·.1)

instance {ε α : Type} [DecidableEq ε] [DecidableEq α] : DecidableEq (Except ε α) := fun a b =>
  match a, b with
  | .ok x, .ok y => decidable_of_iff (x = y) (by simp)
  | .error x, .error y => decidable_of_iff (x = y) (by simp)
  | .ok _, .error _ => isFalse (by simp)
  | .error _, .ok _ => isFalse (by simp)

theorem decDigitsAux_eq : ∀ fuel n, n ≤ fuel → decDigitsAux fuel n = Nat.digits 10 n := by
  intro fuel
  induction fuel with
  | zero => intro n h; interval_cases n; simp [decDigitsAux]
  | succ fuel ih =>
      intro n h
      by_cases hn : n = 0
      · simp [decDigitsAux, hn]
      · rw [decDigitsAux, if_neg hn, Nat.digits_def' (by norm_num) (Nat.pos_of_ne_zero hn),
          ih (n / 10) ?_]
        have := Nat.div_lt_self (Nat.pos_of_ne_zero hn) (by norm_num : (1:ℕ) < 10)
        omega

theorem decDigits_eq (n : Nat) : decDigits n = Nat.digits 10 n :=
  decDigitsAux_eq n n le_rfl

theorem chVal_digitChar {d : Nat} (h : d < 10) : chVal (digitChar d) = d := by
  interval_cases d <;> decide

theorem isDigitCh_digitChar {d : Nat} (h : d < 10) : isDigitCh (digitChar d) = true := by
  interval_cases d <;> decide

theorem natToDec_all_digit (n : Nat) : ∀ c ∈ natToDec n, isDigitCh c = true := by
  intro c hc
  unfold natToDec at hc
  by_cases hn : n = 0
  · simp [hn] at hc; subst hc; decide
  · rw [if_neg hn] at hc
    obtain ⟨d, hd, rfl⟩ := List.mem_map.mp hc
    have hmem : d ∈ Nat.digits 10 n := by
      rw [← decDigits_eq]
      exact List.mem_reverse.mp hd
    exact isDigitCh_digitChar (Nat.digits_lt_base (by norm_num) hmem)

theorem not_mem_natToDec {c : Char} (n : Nat) (h : isDigitCh c = false) :
    c ∉ natToDec n := by
  intro hc
  exact absurd (natToDec_all_digit n c hc) (by simp [h])

theorem natToDec_ne_nil (n : Nat) : natToDec n ≠ [] := by
  unfold natToDec
  by_cases hn : n = 0
  · simp [hn]
  · rw [if_neg hn]
    simp only [ne_eq, List.map_eq_nil_iff, List.reverse_eq_nil_iff, decDigits_eq]
    exact Nat.digits_ne_nil_iff_ne_zero.mpr hn

theorem length_natToDec (n : Nat) : (natToDec n).length = num_digits n := by
  unfold natToDec num_digits
  by_cases hn : n = 0
  · simp [hn]
  · have : (Int.ofNat n).natAbs = n := rfl
    rw [if_neg hn, if_neg (by simpa using hn)]
    simp [this]

theorem foldl_digits (L : List Nat) (a : Nat) :
    L.reverse.foldl (fun acc d => acc * 10 + d) a = a * 10 ^ L.length + Nat.ofDigits 10 L := by
  induction L generalizing a with
  | nil => simp
  | cons d L ih =>
      rw [List.reverse_cons, List.foldl_append, ih]
      simp only [List.foldl_cons, List.foldl_nil, Nat.ofDigits_cons, List.length_cons]
      ring

theorem parseDecCore_natToDec (n : Nat) : parseDecCore (natToDec n) = some n := by
  unfold parseDecCore
  rw [if_neg (by simpa using natToDec_ne_nil n),
    if_pos (List.all_eq_true.mpr fun c hc => natToDec_all_digit n c hc)]
  congr 1
  unfold natToDec
  by_cases hn : n = 0
  · simp [hn]; decide
  · rw [if_neg hn, List.foldl_map]
    have hlt : ∀ d ∈ (decDigits n).reverse, d < 10 := by
      intro d hd
      have hmem : d ∈ Nat.digits 10 n := by
        rw [← decDigits_eq]
        exact List.mem_reverse.mp hd
      exact Nat.digits_lt_base (by norm_num) hmem
    calc ((decDigits n).reverse).foldl (fun a d => a * 10 + chVal (digitChar d)) 0
        = ((decDigits n).reverse).foldl (fun a d => a * 10 + d) 0 := by
          apply List.foldl_ext
          intro a d hd
          rw [chVal_digitChar (hlt d hd)]
      _ = n := by
          rw [foldl_digits, decDigits_eq]
          simp [Nat.ofDigits_digits]

theorem head_natToDec_digit (n : Nat) :
    ∀ c l, natToDec n = c :: l → isDigitCh c = true := by
  intro c l h
  exact natToDec_all_digit n c (h ▸ List.mem_cons_self c l)

theorem parseDecNat_of_digits {l : List Char} (h : ∀ c ∈ l, isDigitCh c = true) :
    parseDecNat l = parseDecCore l := by
  cases l with
  | nil => rfl
  | cons c cs =>
      have hc := h c (List.mem_cons_self c cs)
      have : c ≠ '+' := by rintro rfl; simp [isDigitCh] at hc
      simp [parseDecNat, this]

theorem parseDecInt_of_digits {l : List Char} (h : ∀ c ∈ l, isDigitCh c = true) :
    parseDecInt l = (parseDecCore l).map (fun (n : Nat) => (n : Int)) := by
  cases l with
  | nil => rfl
  | cons c cs =>
      have hc := h c (List.mem_cons_self c cs)
      have h1 : c ≠ '+' := by rintro rfl; simp [isDigitCh] at hc
      have h2 : c ≠ '-' := by rintro rfl; simp [isDigitCh] at hc
      simp [parseDecInt, h1, h2]

theorem parseDecNat_natToDec (n : Nat) : parseDecNat (natToDec n) = some n := by
  rw [parseDecNat_of_digits (natToDec_all_digit n), parseDecCore_natToDec]

theorem parseDecInt_natToDec (n : Nat) : parseDecInt (natToDec n) = some (n : Int) := by
  rw [parseDecInt_of_digits (natToDec_all_digit n), parseDecCore_natToDec]
  rfl

theorem parseDecInt_intToDec (i : Int) : parseDecInt (intToDec i) = some i := by
  unfold intToDec
  by_cases hi : i < 0
  · rw [if_pos hi]
    show parseDecInt ('-' :: natToDec i.natAbs) = some i
    simp only [parseDecInt, if_neg (by decide : ('-':Char) ≠ '+'), if_pos rfl,
      parseDecCore_natToDec]
    have h1 : -(i.natAbs : Int) = i := by omega
    rw [Option.map_some']
    exact congrArg some h1
  · rw [if_neg hi, parseDecInt_natToDec]
    have h1 : (i.toNat : Int) = i := by omega
    rw [h1]

theorem num_digits_coe_natAbs (i : Int) : num_digits (i.natAbs : Int) = num_digits i := by
  unfold num_digits
  by_cases h0 : i = 0
  · simp [h0]
  · rw [if_neg (by omega), if_neg h0, Int.natAbs_ofNat]

theorem length_intToDec (i : Int) :
    (intToDec i).length = num_digits i + (if i < 0 then 1 else 0) := by
  unfold intToDec
  by_cases hi : i < 0
  · rw [if_pos hi, if_pos hi]
    show (natToDec i.natAbs).length + 1 = _
    rw [length_natToDec]
    have := num_digits_coe_natAbs i
    omega
  · rw [if_neg hi, if_neg hi, length_natToDec]
    have h1 : i.toNat = i.natAbs := by omega
    rw [h1]
    have := num_digits_coe_natAbs i
    omega

mutual

/-- Whether a frame contains no empty `BulkString` anywhere (the condition
under which `len` and `encode` agree). -/
def NoEmptyBulk : Resp → Bool
  | .simpleString _ => true
  | .simpleError _ => true
  | .integer _ => true
  | .bulkString s => !s.data.isEmpty
  | .array xs => NoEmptyBulkList xs

def NoEmptyBulkList : List Resp → Bool
  | [] => true
  | x :: xs => NoEmptyBulk x && NoEmptyBulkList xs

end

mutual

theorem len_eq_length_encode :
    ∀ f : Resp, NoEmptyBulk f = true → f.len = f.encode.length
  | .simpleString s, _ => by
      simp [Resp.len, Resp.encode, CTRLF]
  | .simpleError s, _ => by
      simp [Resp.len, Resp.encode, CTRLF]
  | .integer i, _ => by
      simp [Resp.len, Resp.encode, CTRLF, length_intToDec]
      omega
  | .bulkString s, h => by
      have hne : s.data.isEmpty = false := by
        simp [NoEmptyBulk] at h
        simpa using h
      simp [Resp.len, Resp.encode, CTRLF, hne, length_natToDec]
      omega
  | .array xs, h => by
      have hl := lenList_eq_length_encodeList xs (by simpa [NoEmptyBulk] using h)
      simp [Resp.len, Resp.encode, CTRLF, length_natToDec, hl]
      omega

theorem lenList_eq_length_encodeList :
    ∀ xs : List Resp, NoEmptyBulkList xs = true →
      Resp.lenList xs = (Resp.encodeList xs).length
  | [], _ => rfl
  | x :: xs, h => by
      have hx : NoEmptyBulk x = true := by
        simp [NoEmptyBulkList, Bool.and_eq_true] at h
        exact h.1
      have hxs : NoEmptyBulkList xs = true := by
        simp [NoEmptyBulkList, Bool.and_eq_true] at h
        exact h.2
      simp [Resp.lenList, Resp.encodeList, len_eq_length_encode x hx,
        lenList_eq_length_encodeList xs hxs]

end

theorem posOf_append_cons (c : Char) (l r : List Char) (h : c ∉ l) :
    posOf c (l ++ c :: r) = some l.length := by
  induction l with
  | nil => simp [posOf]
  | cons x xs ih =>
      have hx : x ≠ c := by rintro rfl; exact h (List.mem_cons_self x xs)
      have hxs : c ∉ xs := fun hm => h (List.mem_cons_of_mem x hm)
      simp [posOf, hx, ih hxs]

theorem splitNL_of_no_nl (l : List Char) (h : '\n' ∉ l) : splitNL l = [l] := by
  induction l with
  | nil => rfl
  | cons x xs ih =>
      have hx : x ≠ '\n' := by rintro rfl; exact h (List.mem_cons_self _ xs)
      have hxs : '\n' ∉ xs := fun hm => h (List.mem_cons_of_mem x hm)
      simp [splitNL, hx, ih hxs]

theorem splitNL_append (l r : List Char) (h : '\n' ∉ l) :
    splitNL (l ++ '\n' :: r) = l :: splitNL r := by
  induction l with
  | nil => simp [splitNL]
  | cons x xs ih =>
      have hx : x ≠ '\n' := by rintro rfl; exact h (List.mem_cons_self _ xs)
      have hxs : '\n' ∉ xs := fun hm => h (List.mem_cons_of_mem x hm)
      simp [splitNL, hx, ih hxs]

theorem stripCR_concat (l : List Char) : stripCR (l ++ ['\r']) = l := by
  simp [stripCR, List.getLast?_concat]

theorem stripCR_of_last_ne (l : List Char) (h : l.getLast? ≠ some '\r') :
    stripCR l = l := by
  simp [stripCR, h]

mutual

/-- Frames whose encodings survive `parse_inner`'s quirks: bulk strings are
nonempty (the null form panics in `ilog10`) and newline-free (payload reads
stop at the first `\n`), simple strings are `\r`-free (content reads stop
at the first `\r`), and no `SimpleError` occurs (its content read spans the
whole remaining input, which is wrong at non-final array positions). -/
def GoodFrame : Resp → Bool
  | .simpleString s => !s.data.contains '\r'
  | .simpleError _ => false
  | .integer _ => true
  | .bulkString s => !s.data.isEmpty && !s.data.contains '\n'
  | .array xs => GoodFrameList xs

def GoodFrameList : List Resp → Bool
  | [] => true
  | x :: xs => GoodFrame x && GoodFrameList xs

end

theorem encode_ne_nil : ∀ f : Resp, f.encode ≠ []
  | .simpleString s => by simp [Resp.encode]
  | .simpleError s => by simp [Resp.encode]
  | .integer i => by simp [Resp.encode]
  | .bulkString s => by simp [Resp.encode]
  | .array xs => by simp [Resp.encode]

theorem mem_intToDec (i : Int) :
    ∀ c ∈ intToDec i, isDigitCh c = true ∨ c = '-' := by
  intro c hc
  unfold intToDec at hc
  by_cases hi : i < 0
  · rw [if_pos hi] at hc
    rcases List.mem_cons.mp hc with h | h
    · exact Or.inr h
    · exact Or.inl (natToDec_all_digit _ c h)
  · rw [if_neg hi] at hc
    exact Or.inl (natToDec_all_digit _ c hc)

theorem cr_not_mem_intToDec (i : Int) : '\r' ∉ intToDec i := by
  intro h
  rcases mem_intToDec i '\r' h with h | h
  · simp [isDigitCh] at h
  · simp at h

theorem nl_not_mem_intToDec (i : Int) : '\n' ∉ intToDec i := by
  intro h
  rcases mem_intToDec i '\n' h with h | h
  · simp [isDigitCh] at h
  · simp at h

theorem ilog10_of_pos (n : Nat) (h : n ≠ 0) : ilog10 n + 1 = (natToDec n).length := by
  unfold ilog10
  rw [length_natToDec]
  unfold num_digits
  rw [if_neg (by simpa using h)]
  have h1 : (decDigits (Int.natAbs n)).length ≠ 0 := by
    have : Int.natAbs (n : Int) = n := by omega
    rw [this, decDigits_eq]
    simpa [Nat.digits_ne_nil_iff_ne_zero] using h
  have : Int.natAbs (n : Int) = n := by omega
  rw [this] at h1 ⊢
  omega

theorem usizeOf_coe (n : Nat) : usizeOf (n : Int) = n := by
  simp [usizeOf]

theorem parseInnerF_ss (fuel : Nat) (s : String) (tail : List Char)
    (h : '\r' ∉ s.data) :
    parseInnerF (fuel + 1) ((Resp.simpleString s).encode ++ tail) =
      .ok (.simpleString s, tail) := by
  have hin : (Resp.simpleString s).encode ++ tail
      = '+' :: (s.data ++ '\r' :: '\n' :: tail) := by
    simp [Resp.encode, CTRLF]
  rw [hin]
  have hpos : posOf '\r' ('+' :: (s.data ++ '\r' :: '\n' :: tail))
      = some (s.data.length + 1) := by
    rw [posOf, if_neg (by decide), posOf_append_cons '\r' s.data ('\n' :: tail) h]
    rfl
  have hslice : sliceGet ('+' :: (s.data ++ '\r' :: '\n' :: tail)) 1 (s.data.length + 1)
      = some s.data := by
    unfold sliceGet
    have hc : 1 ≤ s.data.length + 1
        ∧ s.data.length + 1 ≤ ('+' :: (s.data ++ '\r' :: '\n' :: tail)).length := by
      simp only [List.length_cons, List.length_append] <;> omega
    rw [if_pos hc]
    simp [List.take_left' rfl]
  have heq : '+' :: (s.data ++ '\r' :: '\n' :: tail)
      = ('+' :: s.data ++ ['\r', '\n']) ++ tail := by simp
  have hlen : ('+' :: s.data ++ ['\r', '\n']).length = s.data.length + 1 + 2 := by
    simp only [List.length_cons, List.length_append, List.length_nil] <;> omega
  have hdrop : ('+' :: (s.data ++ '\r' :: '\n' :: tail)).drop (s.data.length + 1 + 2)
      = tail := by
    rw [heq]
    exact List.drop_left' hlen
  have hle : s.data.length + 1 + 2 ≤ ('+' :: (s.data ++ '\r' :: '\n' :: tail)).length := by
    simp only [List.length_cons, List.length_append] <;> omega
  rw [parseInnerF]
  simp only [if_pos rfl, hpos, hslice]
  rw [hdrop, if_pos hle]
  simp

theorem nl_not_mem_int_header (i : Int) : '\n' ∉ ':' :: intToDec i ++ ['\r'] := by
  intro hm
  rcases List.mem_cons.mp hm with h | h
  · simp at h
  · rcases List.mem_append.mp h with h | h
    · exact nl_not_mem_intToDec i h
    · simp at h

theorem parseInnerF_int (fuel : Nat) (i : Int) (tail : List Char) :
    parseInnerF (fuel + 1) ((Resp.integer i).encode ++ tail) =
      .ok (.integer i, tail) := by
  have hin : (Resp.integer i).encode ++ tail
      = ':' :: (intToDec i ++ '\r' :: '\n' :: tail) := by
    simp [Resp.encode, CTRLF]
  rw [hin]
  have hpos : posOf '\r' (':' :: (intToDec i ++ '\r' :: '\n' :: tail))
      = some ((intToDec i).length + 1) := by
    rw [posOf, if_neg (by decide),
      posOf_append_cons '\r' _ ('\n' :: tail) (cr_not_mem_intToDec i)]
    rfl
  have hslice : sliceGet (':' :: (intToDec i ++ '\r' :: '\n' :: tail)) 1
      ((intToDec i).length + 1) = some (intToDec i) := by
    unfold sliceGet
    have hc : 1 ≤ (intToDec i).length + 1
        ∧ (intToDec i).length + 1 ≤ (':' :: (intToDec i ++ '\r' :: '\n' :: tail)).length := by
      simp only [List.length_cons, List.length_append] <;> omega
    rw [if_pos hc]
    simp [List.take_left' rfl]
  have heq : ':' :: (intToDec i ++ '\r' :: '\n' :: tail)
      = (':' :: intToDec i ++ ['\r']) ++ '\n' :: tail := by simp
  have hposNL : posOf '\n' (':' :: (intToDec i ++ '\r' :: '\n' :: tail))
      = some ((intToDec i).length + 2) := by
    rw [heq, posOf_append_cons '\n' _ tail (nl_not_mem_int_header i)]
    simp only [List.length_cons, List.length_append, List.length_nil,
      Option.some.injEq] <;> omega
  have heq2 : ':' :: (intToDec i ++ '\r' :: '\n' :: tail)
      = (':' :: intToDec i ++ ['\r', '\n']) ++ tail := by simp
  have hdrop : (':' :: (intToDec i ++ '\r' :: '\n' :: tail)).drop
      ((intToDec i).length + 2 + 1) = tail := by
    rw [heq2]
    refine List.drop_left' ?_
    simp only [List.length_cons, List.length_append, List.length_nil] <;> omega
  rw [parseInnerF]
  simp only [if_neg (by decide : ¬(':' = '+')), if_neg (by decide : ¬(':' = '-')),
    if_pos rfl, hpos, hslice, parseDecInt_intToDec]
  unfold finishTail
  simp only [hposNL, hdrop]
  simp

theorem nl_not_mem_chunk (l : List Char) (h : '\n' ∉ l) : '\n' ∉ l ++ ['\r'] := by
  intro hm
  rcases List.mem_append.mp hm with hm | hm
  · exact h hm
  · simp at hm

theorem nl_not_mem_natToDec (n : Nat) : '\n' ∉ natToDec n :=
  not_mem_natToDec n (by decide)

theorem cr_not_mem_natToDec (n : Nat) : '\r' ∉ natToDec n :=
  not_mem_natToDec n (by decide)

theorem parseInnerF_bulk (fuel : Nat) (s : String) (tail : List Char)
    (hne : s.data ≠ []) (hnl : '\n' ∉ s.data) :
    parseInnerF (fuel + 1) ((Resp.bulkString s).encode ++ tail) =
      .ok (.bulkString s, tail) := by
  set L := s.data.length with hL
  have hL1 : 1 ≤ L := by
    rw [hL]
    cases hsd : s.data with
    | nil => exact absurd hsd hne
    | cons a l => simp
  have hdL : ilog10 L + 1 = (natToDec L).length := ilog10_of_pos L (by omega)
  have hin : (Resp.bulkString s).encode ++ tail
      = '$' :: (natToDec L ++ '\r' :: '\n' :: (s.data ++ '\r' :: '\n' :: tail)) := by
    simp [Resp.encode, CTRLF, List.isEmpty_iff, hne]
    rfl
  rw [hin]
  have hsplit : splitNL (natToDec L ++ '\r' :: '\n' :: (s.data ++ '\r' :: '\n' :: tail))
      = (natToDec L ++ ['\r']) :: (s.data ++ ['\r']) :: splitNL tail := by
    have h1 : natToDec L ++ '\r' :: '\n' :: (s.data ++ '\r' :: '\n' :: tail)
        = (natToDec L ++ ['\r']) ++ '\n' :: (s.data ++ '\r' :: '\n' :: tail) := by simp
    rw [h1, splitNL_append _ _ (nl_not_mem_chunk _ (nl_not_mem_natToDec L))]
    have h2 : s.data ++ '\r' :: '\n' :: tail = (s.data ++ ['\r']) ++ '\n' :: tail := by simp
    rw [h2, splitNL_append _ _ (nl_not_mem_chunk _ hnl)]
  have hparts : (splitNL (List.drop 1
        ('$' :: (natToDec L ++ '\r' :: '\n' :: (s.data ++ '\r' :: '\n' :: tail))))).map stripCR
      = natToDec L :: s.data :: (splitNL tail).map stripCR := by
    rw [List.drop_one, List.tail_cons, hsplit]
    simp [stripCR_concat]
  have hcast : ((L : Int)).toNat = L := by omega
  have hprefix : ('$' :: natToDec L ++ ['\r', '\n'] ++ s.data ++ ['\r', '\n']).length
      = 6 + L + ilog10 L := by
    simp only [List.length_cons, List.length_append, List.length_nil]
    omega
  have heq2 : '$' :: (natToDec L ++ '\r' :: '\n' :: (s.data ++ '\r' :: '\n' :: tail))
      = ('$' :: natToDec L ++ ['\r', '\n'] ++ s.data ++ ['\r', '\n']) ++ tail := by
    simp
  have hdrop : ('$' :: (natToDec L ++ '\r' :: '\n' :: (s.data ++ '\r' :: '\n' :: tail))).drop
      (6 + L + ilog10 L) = tail := by
    rw [heq2]
    exact List.drop_left' hprefix
  have hlen : 6 + L + ilog10 L
      ≤ ('$' :: (natToDec L ++ '\r' :: '\n' :: (s.data ++ '\r' :: '\n' :: tail))).length := by
    simp only [List.length_cons, List.length_append] <;> omega
  have hgt : ¬(6 + L + ilog10 L
      > ('$' :: (natToDec L ++ '\r' :: '\n' :: (s.data ++ '\r' :: '\n' :: tail))).length) := by
    simp only [List.length_cons, List.length_append, gt_iff_lt, not_lt]
    omega
  rw [parseInnerF]
  simp only [if_neg (by decide : ¬('$' = '+')), if_neg (by decide : ¬('$' = '-')),
    if_neg (by decide : ¬('$' = ':')), if_pos rfl, hparts]
  simp only [List.getElem?_cons_zero, List.getElem?_cons_succ, parseDecInt_natToDec]
  rw [if_neg (by omega : ¬((L : Int) = -1))]
  simp only [usizeOf_coe, hcast]
  rw [if_neg (by omega : ¬(s.data.length < L)), if_neg (by omega : ¬((L : Int) ≤ 0)),
    if_neg hgt, hdrop]
  simp

theorem encode_length_pos (f : Resp) : 0 < f.encode.length :=
  List.length_pos.mpr (encode_ne_nil f)

theorem nl_not_mem_star_header (n : Nat) : '\n' ∉ '*' :: natToDec n ++ ['\r'] := by
  intro hm
  rcases List.mem_cons.mp hm with h | h
  · simp at h
  · rcases List.mem_append.mp h with h | h
    · exact nl_not_mem_natToDec n h
    · simp at h

theorem parseInnerF_star (fuel : Nat) (n : Nat) (body tail : List Char) (xs : List Resp)
    (helems : parseElemsF fuel n (body ++ tail) = .ok (xs, tail)) :
    parseInnerF (fuel + 1) ('*' :: (natToDec n ++ '\r' :: '\n' :: (body ++ tail)))
      = .ok (.array xs, tail) := by
  have heq : '*' :: (natToDec n ++ '\r' :: '\n' :: (body ++ tail))
      = ('*' :: natToDec n ++ ['\r']) ++ '\n' :: (body ++ tail) := by simp
  have hpos : posOf '\n' ('*' :: (natToDec n ++ '\r' :: '\n' :: (body ++ tail)))
      = some ((natToDec n).length + 2) := by
    rw [heq, posOf_append_cons '\n' _ _ (nl_not_mem_star_header n)]
    simp only [List.length_cons, List.length_append, List.length_nil,
      Option.some.injEq] <;> omega
  have heq2 : '*' :: (natToDec n ++ '\r' :: '\n' :: (body ++ tail))
      = ('*' :: natToDec n ++ ['\r', '\n']) ++ (body ++ tail) := by simp
  have hlen2 : ('*' :: natToDec n ++ ['\r', '\n']).length = (natToDec n).length + 2 + 1 := by
    simp only [List.length_cons, List.length_append, List.length_nil] <;> omega
  have htake : ('*' :: (natToDec n ++ '\r' :: '\n' :: (body ++ tail))).take
      ((natToDec n).length + 2 + 1) = '*' :: natToDec n ++ ['\r', '\n'] := by
    rw [heq2]
    exact List.take_left' hlen2
  have hdrop : ('*' :: (natToDec n ++ '\r' :: '\n' :: (body ++ tail))).drop
      ((natToDec n).length + 2 + 1) = body ++ tail := by
    rw [heq2]
    exact List.drop_left' hlen2
  have hnd1 := List.length_pos.mpr (natToDec_ne_nil n)
  have hlt : ¬(('*' :: natToDec n ++ ['\r', '\n']).length < 2) := by
    rw [hlen2]
    omega
  have hslice : sliceGet ('*' :: natToDec n ++ ['\r', '\n']) 1
      (('*' :: natToDec n ++ ['\r', '\n']).length - 2) = some (natToDec n) := by
    unfold sliceGet
    rw [hlen2]
    rw [if_pos (by omega)]
    have hd1 : ('*' :: natToDec n ++ ['\r', '\n']).drop 1 = natToDec n ++ ['\r', '\n'] := rfl
    rw [hd1]
    have harg : (natToDec n).length + 2 + 1 - 2 - 1 = (natToDec n).length := by omega
    rw [harg]
    rw [List.take_left' rfl]
  have hcast : ((n : Int)).toNat = n := by omega
  rw [parseInnerF]
  simp only [if_neg (by decide : ¬('*' = '+')), if_neg (by decide : ¬('*' = '-')),
    if_neg (by decide : ¬('*' = ':')), if_neg (by decide : ¬('*' = '$')), if_pos rfl,
    hpos, htake, hdrop]
  rw [if_neg hlt, hslice]
  simp only [parseDecInt_natToDec, hcast, helems]
  simp

mutual

theorem parse_encode_good : ∀ (fuel : Nat) (f : Resp) (tail : List Char),
    GoodFrame f = true → (f.encode ++ tail).length < fuel →
    parseInnerF fuel (f.encode ++ tail) = .ok (f, tail)
  | 0, _, _ => by
      intro _ h
      exact absurd h (Nat.not_lt_zero _)
  | fuel + 1, .simpleString s, tail => by
      intro hg _
      exact parseInnerF_ss fuel s tail (by simpa [GoodFrame] using hg)
  | fuel + 1, .simpleError s, tail => by
      intro hg _
      exact absurd hg (by simp [GoodFrame])
  | fuel + 1, .integer i, tail => by
      intro _ _
      exact parseInnerF_int fuel i tail
  | fuel + 1, .bulkString s, tail => by
      intro hg _
      have h1 : s.data ≠ [] ∧ '\n' ∉ s.data := by
        simpa [GoodFrame, List.isEmpty_iff] using hg
      exact parseInnerF_bulk fuel s tail h1.1 h1.2
  | fuel + 1, .array xs, tail => by
      intro hg hfuel
      set n := xs.length with hn
      have hin : (Resp.array xs).encode ++ tail
          = '*' :: (natToDec n ++ '\r' :: '\n' :: (Resp.encodeList xs ++ tail)) := by
        simp [Resp.encode, CTRLF]
      have helems : parseElemsF fuel n (Resp.encodeList xs ++ tail) = .ok (xs, tail) := by
        refine parse_encode_goodList fuel xs tail (by simpa [GoodFrame] using hg) ?_
        have h3 : ((Resp.array xs).encode ++ tail).length
            = 3 + (natToDec n).length + (Resp.encodeList xs ++ tail).length := by
          rw [hin]
          simp only [List.length_cons, List.length_append]
          omega
        rw [h3] at hfuel
        omega
      rw [hin]
      exact parseInnerF_star fuel n (Resp.encodeList xs) tail xs helems

theorem parse_encode_goodList : ∀ (fuel : Nat) (xs : List Resp) (tail : List Char),
    GoodFrameList xs = true → (Resp.encodeList xs ++ tail).length + 2 ≤ fuel →
    parseElemsF fuel xs.length (Resp.encodeList xs ++ tail) = .ok (xs, tail)
  | 0, _, _ => by
      intro _ h
      exact absurd h (by omega)
  | fuel + 1, [], tail => by
      intro _ _
      show parseElemsF (fuel + 1) 0 tail = .ok ([], tail)
      rw [parseElemsF]
  | fuel + 1, x :: xs, tail => by
      intro hg hfuel
      have h1 : GoodFrame x = true ∧ GoodFrameList xs = true := by
        simpa [GoodFrameList, Bool.and_eq_true] using hg
      have hlx := encode_length_pos x
      have hassoc : Resp.encodeList (x :: xs) ++ tail
          = x.encode ++ (Resp.encodeList xs ++ tail) := by
        simp [Resp.encodeList]
      have hx : parseInnerF fuel (x.encode ++ (Resp.encodeList xs ++ tail))
          = .ok (x, Resp.encodeList xs ++ tail) := by
        refine parse_encode_good fuel x _ h1.1 ?_
        rw [hassoc] at hfuel
        simp only [List.length_append] at hfuel ⊢
        omega
      have hxs : parseElemsF fuel xs.length (Resp.encodeList xs ++ tail) = .ok (xs, tail) := by
        refine parse_encode_goodList fuel xs tail h1.2 ?_
        rw [hassoc] at hfuel
        simp only [List.length_append] at hfuel ⊢
        omega
      rw [List.length_cons, hassoc, parseElemsF]
      simp only [hx, hxs]

end

theorem nl_not_mem_err_header (s : String) (h : '\n' ∉ s.data) :
    '\n' ∉ '-' :: s.data ++ ['\r'] := by
  intro hm
  rcases List.mem_cons.mp hm with hm | hm
  · simp at hm
  · rcases List.mem_append.mp hm with hm | hm
    · exact h hm
    · simp at hm

/-- A top-level `SimpleError` frame (the whole input, nothing after it) does
round-trip: the `len - 2` content read is then correct. -/
theorem parse_inner_simpleError (s : String) (h : '\n' ∉ s.data) :
    Resp.parse_inner ((Resp.simpleError s).encode) = .ok (.simpleError s, []) := by
  have hin : (Resp.simpleError s).encode = '-' :: (s.data ++ '\r' :: '\n' :: []) := by
    simp [Resp.encode, CTRLF]
  rw [Resp.parse_inner, hin]
  have hli : ('-' :: (s.data ++ '\r' :: '\n' :: [])).length = s.data.length + 3 := by
    simp only [List.length_cons, List.length_append, List.length_nil] <;> omega
  have hlt : ¬(('-' :: (s.data ++ '\r' :: '\n' :: [])).length < 2) := by
    rw [hli]
    omega
  have hslice : sliceGet ('-' :: (s.data ++ '\r' :: '\n' :: [])) 1
      (('-' :: (s.data ++ '\r' :: '\n' :: [])).length - 2) = some s.data := by
    unfold sliceGet
    rw [hli]
    rw [if_pos (by omega)]
    have hd1 : ('-' :: (s.data ++ '\r' :: '\n' :: [])).drop 1 = s.data ++ '\r' :: '\n' :: [] :=
      rfl
    rw [hd1]
    have harg : s.data.length + 3 - 2 - 1 = s.data.length := by omega
    rw [harg]
    rw [List.take_left' rfl]
  have heq : '-' :: (s.data ++ '\r' :: '\n' :: [])
      = ('-' :: s.data ++ ['\r']) ++ '\n' :: [] := by simp
  have hpos : posOf '\n' ('-' :: (s.data ++ '\r' :: '\n' :: []))
      = some (s.data.length + 2) := by
    rw [heq, posOf_append_cons '\n' _ _ (nl_not_mem_err_header s h)]
    simp only [List.length_cons, List.length_append, List.length_nil,
      Option.some.injEq] <;> omega
  have hdrop : ('-' :: (s.data ++ '\r' :: '\n' :: [])).drop (s.data.length + 2 + 1) = [] := by
    have harg : s.data.length + 2 + 1 = ('-' :: (s.data ++ '\r' :: '\n' :: [])).length := by
      rw [hli]
    rw [harg]
    exact List.drop_length _
  rw [hli, parseInnerF]
  rw [if_neg (by decide : ¬('-' = '+')), if_pos rfl]
  rw [if_neg hlt, hslice]
  unfold finishTail
  simp only [hpos, hdrop]

/-- Frames whose encodings round-trip through `parse_inner` when they are
the whole input: `GoodFrame`, except that a `SimpleError` is also allowed at
the top level (where the whole-input content read happens to be right)
provided its text has no `\n`. -/
def GoodTop : Resp → Bool
  | .simpleError s => !s.data.contains '\n'
  | f => GoodFrame f

theorem parse_inner_encode_good (f : Resp) (h : GoodTop f = true) :
    Resp.parse_inner f.encode = .ok (f, []) := by
  cases f with
  | simpleError s =>
      refine parse_inner_simpleError s ?_
      simpa [GoodTop] using h
  | simpleString s =>
      rw [Resp.parse_inner, ← List.append_nil (Resp.encode _)]
      exact parse_encode_good _ _ [] (by simpa [GoodTop] using h) (Nat.lt_succ_self _)
  | integer i =>
      rw [Resp.parse_inner, ← List.append_nil (Resp.encode _)]
      exact parse_encode_good _ _ [] (by simpa [GoodTop, GoodFrame] using trivial)
        (Nat.lt_succ_self _)
  | bulkString s =>
      rw [Resp.parse_inner, ← List.append_nil (Resp.encode _)]
      exact parse_encode_good _ _ [] (by simpa [GoodTop] using h) (Nat.lt_succ_self _)
  | array xs =>
      rw [Resp.parse_inner, ← List.append_nil (Resp.encode _)]
      exact parse_encode_good _ _ [] (by simpa [GoodTop] using h) (Nat.lt_succ_self _)

/-- C1 (amended): `Resp::len` agrees with the byte length of `Resp::encode`
for every frame that contains no empty `BulkString` — all five variants,
nested arrays included.  (At the empty `BulkString` the two disagree: `len`
counts the `$0\r\n\r\n` shape, 6 bytes, while `encode` emits the 5-byte
null form `$-1\r\n`; see the counterexample.) -/
theorem C1_len_fidelity (f : Resp) (h : NoEmptyBulk f = true) :
    f.len = f.encode.length :=
  len_eq_length_encode f h

theorem C1_len_fidelity_witness :
    NoEmptyBulk (Resp.array [Resp.bulkString "SET", Resp.integer (-5),
        Resp.array [Resp.simpleString "x"]]) = true
    ∧ (Resp.array [Resp.bulkString "SET", Resp.integer (-5),
        Resp.array [Resp.simpleString "x"]]).len
      = (Resp.array [Resp.bulkString "SET", Resp.integer (-5),
        Resp.array [Resp.simpleString "x"]]).encode.length :=
  ⟨by decide, C1_len_fidelity _ (by decide)⟩

/-- C1 counterexample: on the empty `BulkString`, `len` returns 6 but
`encode` produces the 5 bytes `$-1\r\n`, so the claimed equality fails. -/
theorem C1_len_fidelity_counterexample :
    (Resp.bulkString "").len = 6
    ∧ (Resp.bulkString "").encode.length = 5
    ∧ (Resp.bulkString "").len ≠ (Resp.bulkString "").encode.length := by
  refine ⟨by decide, by decide, by decide⟩

/-- C2 (amended): `parse_inner (encode f) = Ok (f, empty)` for every frame
`f` that is `GoodTop`: bulk strings nonempty and `\n`-free, simple strings
`\r`-free, simple errors only at the very top level and `\n`-free.  (For
the excluded frames the round-trip genuinely fails — the empty `BulkString`
makes `parse_inner` panic; see the counterexample.) -/
theorem C2_roundtrip (f : Resp) (h : GoodTop f = true) :
    Resp.parse_inner f.encode = .ok (f, []) :=
  parse_inner_encode_good f h

theorem C2_roundtrip_witness :
    GoodTop (Resp.array [Resp.bulkString "SET", Resp.bulkString "k",
        Resp.array [Resp.integer 7, Resp.simpleString "OK"]]) = true
    ∧ Resp.parse_inner (Resp.array [Resp.bulkString "SET", Resp.bulkString "k",
        Resp.array [Resp.integer 7, Resp.simpleString "OK"]]).encode
      = .ok (Resp.array [Resp.bulkString "SET", Resp.bulkString "k",
        Resp.array [Resp.integer 7, Resp.simpleString "OK"]], []) :=
  ⟨by decide, C2_roundtrip _ (by decide)⟩

/-- C2 counterexample: the empty `BulkString` is representable (its encoding
is the null form `$-1\r\n` the spec itself prescribes), but parsing that
encoding does not return the frame: the parser rewrites the `-1` length to
`0` and then calls `0isize.ilog10()`, which panics. -/
theorem C2_roundtrip_counterexample :
    Resp.parse_inner (Resp.bulkString "").encode = .error RespErr.crash := by
  rfl

/-- C3 (code bug): on the proper prefix `"+OK"` of the encoding `"+OK\r\n"`
of `SimpleString "OK"`, `parse_inner` does not return an
incomplete-input error: it reaches `Err(todo!())` and panics; on the empty
prefix it panics on the `input[0]` index.  The conjuncts check that the
inputs really are prefixes of a frame encoding. -/
theorem C3_prefix_crash :
    Resp.parse_inner ['+', 'O', 'K'] = .error RespErr.crash
    ∧ Resp.parse_inner [] = .error RespErr.crash
    ∧ ['+', 'O', 'K'] ++ ['\r', '\n'] = (Resp.simpleString "OK").encode := by
  refine ⟨rfl, rfl, by decide⟩

/-- `ConfigItem` from `src/command/mod.rs` lines 7-10. -/
inductive ConfigItem where
  | dir
  | dbFileName
deriving DecidableEq

/-- The `Command` enum from `src/command/mod.rs` lines 12-26.  Note it has
exactly these twelve variants: in particular there is no `Del`, `Type`,
`XAdd` or `XRange` variant in this enum. -/
inductive Command where
  | ping
  | echo (msg : String)
  | get (key : Resp)
  | set (key value : Resp) (expiry : Option Int)
  | configGet (item : ConfigItem)
  | keys (k : Resp)
  | info (p : Option Resp)
  | save
  | replConf (k v : Resp)
  | psync (a b : Resp)
  | wait (a b : Resp)
  | select (i : Resp)
deriving DecidableEq

/-- `CommandError` from `src/command/mod.rs` lines 28-38, plus `crash` for
the `unwrap()` and `assert!`/`todo!` panics inside `Command::parse`. -/
inductive CommandErr where
  | protocolError (e : RespErr)
  | unsupportedCommand (s : String)
  | incorrectFormat
  | crash
deriving DecidableEq

/-- `Command::is_write_command` (`src/command/mod.rs` lines 41-46): true
exactly for `Set`. -/
def Command.is_write_command : Command → Bool
  | .set _ _ _ => true
  | _ => false

/-- `Command::should_account` (`src/command/mod.rs` lines 48-62): true for
`Set`, `Ping` and `ReplConf` (the commented-out GETACK exclusion is dead
code). -/
def Command.should_account : Command → Bool
  | .set _ _ _ => true
  | .ping => true
  | .replConf _ _ => true
  | _ => false

/-- `Command::name` (`src/command/mod.rs` lines 216-231). -/
def Command.name : Command → String
  | .ping => "PING"
  | .echo _ => "ECHO"
  | .get _ => "GET"
  | .set _ _ _ => "SET"
  | .configGet _ => "CONFIG"
  | .keys _ => "KEYS"
  | .info _ => "INFO"
  | .save => "SAVE"
  | .replConf _ _ => "REPLCONF"
  | .psync _ _ => "PSYNC"
  | .wait _ _ => "WAIT"
  | .select _ => "SELECT"

/-- The derived `Debug` rendering of `ConfigItem` used by
`From<Command> for Resp` (`format!("{:?}", config_item)`). -/
def ConfigItem.debugStr : ConfigItem → String
  | .dir => "Dir"
  | .dbFileName => "DbFileName"

/-- `From<Command<'c>> for Resp<'c>` (`src/resp.rs` lines 294-358): the
command as an Array frame, command name first. -/
def Resp.fromCommand (c : Command) : Resp :=
  .array (.bulkString c.name ::
    match c with
    | .ping => []
    | .echo m => [.bulkString m]
    | .get k => [k]
    | .set k v e =>
        [k, v] ++ (match e with
          | some exp => [.bulkString "EX", .integer exp]
          | none => [])
    | .configGet it => [.bulkString it.debugStr]
    | .keys r => [r]
    | .info p => (match p with | some i => [i] | none => [])
    | .save => []
    | .replConf k v => [k, v]
    | .psync a b => [a, b]
    | .wait a b => [a, b]
    | .select i => [i])

/-- ASCII uppercasing of one character, as `str::to_uppercase` acts on the
command names in play (all ASCII). -/
def charToUpper (c : Char) : Char :=
  if 97 ≤ c.toNat ∧ c.toNat ≤ 122 then Char.ofNat (c.toNat - 32) else c

/-- `str::to_uppercase` on an ASCII string. -/
def strToUpper (s : String) : String := ⟨s.data.map charToUpper⟩

/-- `Command::parse` (`src/command/mod.rs` lines 85-214): parse one frame
with `Resp::parse_inner`, require an Array headed by a BulkString, then
dispatch on the uppercased command name.  `unwrap()` on missing REPLCONF /
PSYNC / WAIT arguments and the `todo!()` under CONFIG are `crash`; the
`assert!` on SET's fourth argument is `crash` when violated.  There is no
arm for DEL (or TYPE, XADD, …): those names fall to `UnsupportedCommand`. -/
def Command.parse (input : List Char) : Except CommandErr (Command × List Char) :=
  match Resp.parse_inner input with
  | .error e => .error (.protocolError e)
  | .ok (packet, rest) =>
      let result : Except CommandErr Command :=
        match packet with
        | .array array =>
            match array[0]? with
            | none => .error .incorrectFormat
            | some (Resp.bulkString c) =>
                let u := strToUpper c
                if u = "PING" then .ok .ping
                else if u = "ECHO" then
                  match array[1]? with
                  | none => .error .incorrectFormat
                  | some (Resp.bulkString s) => .ok (.echo s)
                  | some _ => .error .incorrectFormat
                else if u = "GET" then
                  match array[1]? with
                  | none => .error .incorrectFormat
                  | some key => .ok (.get key)
                else if u = "SET" then
                  match array[1]? with
                  | none => .error .incorrectFormat
                  | some key =>
                      match array[2]? with
                      | none => .error .incorrectFormat
                      | some value =>
                          if (match array[3]? with
                              | some (Resp.bulkString _) => true
                              | none => true
                              | some _ => false) then
                            .ok (.set key value ((array[4]?).bind Resp.expect_integer))
                          else .error .crash
                else if u = "CONFIG" then
                  match array[1]? with
                  | none => .error .incorrectFormat
                  | some (Resp.bulkString g) =>
                      if g = "GET" then
                        match array[2]? with
                        | none => .error .incorrectFormat
                        | some (Resp.bulkString item) =>
                            if item = "dir" then .ok (.configGet .dir)
                            else if item = "dbfilename" then .ok (.configGet .dbFileName)
                            else .error .incorrectFormat
                        | some _ => .error .incorrectFormat
                      else .error .crash
                  | some _ => .error .crash
                else if u = "KEYS" then
                  match (array[1]?).bind Resp.expect_bulk_string with
                  | some s => .ok (.keys (.bulkString s))
                  | none => .error .incorrectFormat
                else if u = "SAVE" then .ok .save
                else if u = "INFO" then
                  .ok (.info (((array[1]?).bind Resp.expect_bulk_string).map Resp.bulkString))
                else if u = "REPLCONF" then
                  match (array[1]?).bind Resp.expect_bulk_string,
                      (array[2]?).bind Resp.expect_bulk_string with
                  | some a, some b => .ok (.replConf (.bulkString a) (.bulkString b))
                  | _, _ => .error .crash
                else if u = "PSYNC" then
                  match (array[1]?).bind Resp.expect_bulk_string,
                      (array[2]?).bind Resp.expect_bulk_string with
                  | some a, some b => .ok (.psync (.bulkString a) (.bulkString b))
                  | _, _ => .error .crash
                else if u = "WAIT" then
                  match (array[1]?).bind Resp.expect_bulk_string,
                      (array[2]?).bind Resp.expect_bulk_string with
                  | some a, some b => .ok (.wait (.bulkString a) (.bulkString b))
                  | _, _ => .error .crash
                else if u = "SELECT" then
                  match (array[1]?).bind Resp.expect_bulk_string with
                  | some s => .ok (.select (.bulkString s))
                  | none => .error .incorrectFormat
                else .error (.unsupportedCommand u)
            | some _ => .error .incorrectFormat
        | _ => .error .incorrectFormat
      result.map (fun c2 => (c2, rest))

/-- The write-accounting epilogue of `Connection::handle_command`
(`src/connection.rs` lines 375-381): when the command is a write command
and the connection is not promoted to a replica, add the `len` of the
command's Array frame to `master_repl_offset` and broadcast the command;
otherwise do neither.  Returns the new offset and whether the command was
broadcast. -/
def accountStep (promoted : Bool) (offset : Nat) (c : Command) : Nat × Bool :=
  if c.is_write_command && !promoted then
    (offset + (Resp.fromCommand c).len, true)
  else (offset, false)

/-- C4 (amended): on a non-promoted master connection a command is counted
into `master_repl_offset` and broadcast exactly when it is SET — DEL is not
a `Command` at all (its wire form is rejected as UnsupportedCommand, see
the counterexample) — and the amount added is `Resp::len` of the command's
Array frame (not the length of `encode`, from which it differs when the
command contains an empty bulk string); a promoted connection never counts
or broadcasts. -/
theorem C4_write_accountable (off : Nat) (c : Command) :
    ((∃ k v e, c = Command.set k v e) →
        accountStep false off c = (off + (Resp.fromCommand c).len, true))
    ∧ ((¬ ∃ k v e, c = Command.set k v e) →
        accountStep false off c = (off, false))
    ∧ accountStep true off c = (off, false) := by
  refine ⟨?_, ?_, ?_⟩
  · rintro ⟨k, v, e, rfl⟩
    simp [accountStep, Command.is_write_command]
  · intro h
    cases c
    case set k v e => exact absurd ⟨k, v, e, rfl⟩ h
    all_goals simp [accountStep, Command.is_write_command]
  · simp [accountStep]

theorem C4_write_accountable_witness :
    accountStep false 3 (.set (Resp.bulkString "k") (Resp.bulkString "v") none)
      = (3 + (Resp.fromCommand (.set (Resp.bulkString "k") (Resp.bulkString "v") none)).len,
        true)
    ∧ accountStep false 3 .ping = (3, false) :=
  ⟨(C4_write_accountable 3 _).1 ⟨_, _, _, rfl⟩,
   (C4_write_accountable 3 _).2.1 (by rintro ⟨k, v, e, h⟩; cases h)⟩

/-- C4 counterexample: (i) for `SET k ""` the amount added to the offset is
`len` of the frame, 26, while `len(encode(cmd_as_array))` as the claim
states it is 25 (the empty bulk value encodes as `$-1\r\n`); (ii) DEL is
not a supported command at all — parsing `*2\r\n$3\r\nDEL\r\n$1\r\nk\r\n`
yields UnsupportedCommand, so no DEL command is ever counted or
broadcast. -/
theorem C4_write_accountable_counterexample :
    accountStep false 0 (.set (Resp.bulkString "k") (Resp.bulkString "") none)
      = (26, true)
    ∧ ((Resp.fromCommand (.set (Resp.bulkString "k") (Resp.bulkString "") none)).encode).length
      = 25
    ∧ Command.parse ((Resp.array [Resp.bulkString "DEL", Resp.bulkString "k"]).encode)
      = .error (.unsupportedCommand "DEL") := by
  refine ⟨by decide, by decide, by decide⟩

/-- The `REPLCONF ACK <m>` frame the replica writes back to the master
(`src/replica.rs` lines 145-150 and 207-212). -/
def ackResp (m : Nat) : Resp :=
  Resp.fromCommand (.replConf (.bulkString "ACK") (.bulkString ⟨natToDec m⟩))

/-- One iteration of the replica command-apply loop for a parsed command
`c` occupying `cmdBytes` wire bytes (`src/replica.rs` lines 126-154),
combined with the replies `Replica::handle_command` itself writes (lines
177-224): first the GETACK reply (with the *old* counter), then the
`bytes_processed` update for accountable commands, then — for every write
command — an unsolicited `REPLCONF ACK` with the updated counter.  Returns
the new counter and the frames written to the master socket, in order.
The keyspace mutation of `Set` and its expiry timer do not touch the
socket and are not modelled here. -/
def replicaStep (bp cmdBytes : Nat) (c : Command) : Nat × List Resp :=
  let replies1 : List Resp :=
    match c with
    | .replConf k _ =>
        match k with
        | .bulkString s => if s = "GETACK" then [ackResp bp] else []
        | _ => []
    | _ => []
  let bp2 := if c.should_account then bp + cmdBytes else bp
  let replies2 : List Resp := if c.is_write_command then [ackResp bp2] else []
  (bp2, replies1 ++ replies2)

/-- C5 (amended): on the replication link the replica is silent for every
command that is neither `REPLCONF GETACK …` nor a write command; `REPLCONF
GETACK` (any second argument, not just `*`) elicits `REPLCONF ACK
<bytes_processed>` computed *before* the command is counted; and — contrary
to the claim's "only GETACK elicits a reply" — after every SET the replica
also sends an unsolicited `REPLCONF ACK` with the updated counter. -/
theorem C5_replica_replies (bp n : Nat) (c : Command) :
    ((∀ k v e, c ≠ Command.set k v e) →
        (∀ v, c ≠ Command.replConf (Resp.bulkString "GETACK") v) →
        (replicaStep bp n c).2 = [])
    ∧ (∀ v, (replicaStep bp n (Command.replConf (Resp.bulkString "GETACK") v)).2
        = [ackResp bp])
    ∧ (∀ k v e, (replicaStep bp n (Command.set k v e)).2 = [ackResp (bp + n)]) := by
  refine ⟨?_, ?_, ?_⟩
  · intro h1 h2
    cases c with
    | set k v e => exact absurd rfl (h1 k v e)
    | replConf k v =>
        cases k with
        | bulkString s =>
            by_cases hs : s = "GETACK"
            · subst hs
              exact absurd rfl (h2 v)
            · simp [replicaStep, Command.should_account, Command.is_write_command, hs]
        | simpleString s => simp [replicaStep, Command.should_account, Command.is_write_command]
        | simpleError s => simp [replicaStep, Command.should_account, Command.is_write_command]
        | integer i => simp [replicaStep, Command.should_account, Command.is_write_command]
        | array xs => simp [replicaStep, Command.should_account, Command.is_write_command]
    | _ => simp [replicaStep, Command.should_account, Command.is_write_command]
  · intro v
    simp [replicaStep, Command.should_account, Command.is_write_command]
  · intro k v e
    simp [replicaStep, Command.should_account, Command.is_write_command]

theorem C5_replica_replies_witness :
    (replicaStep 7 14 .ping).2 = []
    ∧ (replicaStep 7 14 (Command.replConf (Resp.bulkString "GETACK")
        (Resp.bulkString "*"))).2 = [ackResp 7]
    ∧ (replicaStep 7 14 (Command.set (Resp.bulkString "x") (Resp.bulkString "1") none)).2
      = [ackResp 21] :=
  ⟨(C5_replica_replies 7 14 .ping).1 (by intro k v e h; cases h) (by intro v h; cases h),
   (C5_replica_replies 7 14 .ping).2.1 (Resp.bulkString "*"),
   (C5_replica_replies 7 14 .ping).2.2 (Resp.bulkString "x") (Resp.bulkString "1") none⟩

/-- C5 counterexample: a SET received on the replication link is *not*
applied silently — the replica writes an unsolicited `REPLCONF ACK 25`
back to the master (`src/replica.rs` lines 144-151). -/
theorem C5_replica_replies_counterexample :
    (replicaStep 0 25 (Command.set (Resp.bulkString "x") (Resp.bulkString "1") none)).2
      = [ackResp 25]
    ∧ (replicaStep 0 25 (Command.set (Resp.bulkString "x") (Resp.bulkString "1") none)).2
      ≠ [] := by
  refine ⟨by decide, by decide⟩

/-- `StreamId` from `src/data/stream.rs` lines 25-29 (`usize` fields as
`Nat`). -/
structure StreamId where
  milliseconds : Nat
  sequence_number : Nat
deriving DecidableEq

/-- `StreamId::MIN` (`src/data/stream.rs` lines 32-35). -/
def StreamId.MIN : StreamId := ⟨0, 0⟩

/-- `StreamId::MAX` (`src/data/stream.rs` lines 37-40): both fields
`usize::MAX`. -/
def StreamId.MAX : StreamId := ⟨2 ^ 64 - 1, 2 ^ 64 - 1⟩

/-- `StreamId::is_zero` (`src/data/stream.rs` lines 42-44). -/
def StreamId.is_zero (id : StreamId) : Bool :=
  id.milliseconds == 0 && id.sequence_number == 0

/-- The `PartialOrd` implementation (`src/data/stream.rs` lines 59-69):
lexicographic on (milliseconds, sequence_number). -/
def StreamId.cmp (x y : StreamId) : Ordering :=
  match compare x.milliseconds y.milliseconds with
  | .eq => compare x.sequence_number y.sequence_number
  | o => o

/-- Rust `x <= y` via the `PartialOrd` above. -/
def StreamId.isLE (x y : StreamId) : Bool := !(StreamId.cmp x y == .gt)

/-- Rust `x >= y` via the `PartialOrd` above. -/
def StreamId.isGE (x y : StreamId) : Bool := !(StreamId.cmp x y == .lt)

/-- `StreamError` from `src/data/stream.rs` lines 7-23, plus `crash` for
the `unwrap()` panic inside `Stream::range` when a field value cannot be
converted back to a frame. -/
inductive StreamError where
  | mallformedStreamId
  | invalidStreamId
  | zeroStreamId
  | shouldGenerateSequenceNumber (ms : Nat)
  | shouldGenerateFullId
  | crash
deriving DecidableEq

/-- The `thiserror` display strings of `StreamError` (used by
`err.to_string()` in the XADD arm of `handle_command`). -/
def StreamError.msg : StreamError → String
  | .mallformedStreamId => "Invalid format for stream id was provided"
  | .invalidStreamId =>
      "ERR The ID specified in XADD is equal or smaller than the target stream top item"
  | .zeroStreamId => "ERR The ID specified in XADD must be greater than 0-0"
  | .shouldGenerateSequenceNumber _ => "Missing sequence number"
  | .shouldGenerateFullId => "Missing milliseconds and sequence number"
  | .crash => "panic"

/-- `Value` from `src/data.rs` lines 8-12 with the `Stream` payload of
`src/data/stream.rs` line 121 inlined: an `IndexMap` is an
insertion-ordered map, modelled as an association list. -/
inductive Value where
  | str (s : String)
  | list (xs : List Value)
  | stream (entries : List (StreamId × List (String × Value)))

/-- The stream representation: insertion-ordered `StreamId → fields`. -/
abbrev Strm := List (StreamId × List (String × Value))

/-- `Value::value_type` (`src/data.rs` lines 22-28). -/
def Value.value_type : Value → String
  | .str _ => "string"
  | .list _ => "list"
  | .stream _ => "stream"

mutual

/-- `From<Resp> for Value` (`src/data.rs` lines 31-47). -/
def Value.fromResp : Resp → Value
  | .simpleString s => .str s
  | .simpleError s => .str s
  | .integer i => .str ⟨intToDec i⟩
  | .bulkString s => .str s
  | .array xs => .list (Value.fromRespList xs)

def Value.fromRespList : List Resp → List Value
  | [] => []
  | x :: xs => Value.fromResp x :: Value.fromRespList xs

end

mutual

/-- `TryFrom<Value> for Resp` (`src/resp.rs` lines 360-376): strings become
bulk strings, lists arrays (children that fail are silently dropped by the
`flat_map`), and a stream is not serializable. -/
def Value.tryIntoResp : Value → Except RespErr Resp
  | .str s => .ok (.bulkString s)
  | .list xs => .ok (.array (Value.tryIntoList xs))
  | .stream _ => .error (.dataTypeIsNotSupported "stream")

def Value.tryIntoList : List Value → List Resp
  | [] => []
  | v :: vs =>
      (match Value.tryIntoResp v with
        | .ok r => [r]
        | .error _ => []) ++ Value.tryIntoList vs

end

/-- `TryFrom<&Resp> for StreamId` (`src/data/stream.rs` lines 77-117):
the textual forms `a-b` (explicit), `a-*` (generate the sequence number)
and `*` (generate everything); the generate cases are signalled through
the error channel exactly as in the source. -/
def StreamId.tryFromResp (r : Resp) : Except StreamError StreamId :=
  match r.expect_bulk_string with
  | none => .error .mallformedStreamId
  | some s =>
      match splitOnce '-' s.data with
      | some (msL, seqL) =>
          if seqL = ['*'] then
            match parseDecNat msL with
            | some ms => .error (.shouldGenerateSequenceNumber ms)
            | none => .error .mallformedStreamId
          else
            match parseDecNat msL with
            | none => .error .mallformedStreamId
            | some ms =>
                match parseDecNat seqL with
                | none => .error .mallformedStreamId
                | some seq => .ok ⟨ms, seq⟩
      | none =>
          if s.data = ['*'] then .error .shouldGenerateFullId
          else .error .mallformedStreamId

/-- `IndexMap::insert` on a fields map: replace in place if the key
exists, else append. -/
def fieldsInsert (fs : List (String × Value)) (k : String) (v : Value) :
    List (String × Value) :=
  if fs.any (fun p => p.1 == k) then
    fs.map (fun p => if p.1 = k then (k, v) else p)
  else fs ++ [(k, v)]

/-- The `entry`-based insertion at the end of `Stream::insert`
(`src/data/stream.rs` lines 193-204): update the fields map in place when
the id is present, else append a fresh singleton map. -/
def entryInsert (s : Strm) (id : StreamId) (k : String) (v : Value) : Strm :=
  if s.any (fun en => en.1 == id) then
    s.map (fun en => if en.1 = id then (en.1, fieldsInsert en.2 k v) else en)
  else s ++ [(id, [(k, v)])]

/-- `Stream::insert` (`src/data/stream.rs` lines 131-207).  `now` is the
value `get_epoch_ms()` would return, passed in explicitly.  The
autogenerated sequence number for `a-*` uses `find` — the *first* entry
whose milliseconds match — and the full autogeneration for `*` uses the
last entry.  On error the stream is unchanged (the source returns before
mutating). -/
def Strm.insert (s : Strm) (now : Nat) (idr : Resp) (key : String) (v : Value) :
    Except StreamError (StreamId × Strm) :=
  let idRes : Except StreamError StreamId :=
    match StreamId.tryFromResp idr with
    | .ok id => .ok id
    | .error (.shouldGenerateSequenceNumber ms) =>
        let seq : Nat :=
          match s.find? (fun en => en.1.milliseconds == ms) with
          | some en => en.1.sequence_number + 1
          | none => if ms = 0 then 1 else 0
        .ok ⟨ms, seq⟩
    | .error .shouldGenerateFullId =>
        let seq : Nat :=
          match s.getLast? with
          | some en => if en.1.milliseconds == now then en.1.sequence_number + 1 else 0
          | none => 0
        .ok ⟨now, seq⟩
    | .error e => .error e
  match idRes with
  | .error e => .error e
  | .ok id =>
      if id.is_zero then .error .zeroStreamId
      else
        match s.getLast? with
        | some last =>
            if id.isLE last.1 then .error .invalidStreamId
            else .ok (id, entryInsert s id key v)
        | none => .ok (id, entryInsert s id key v)

/-- `From<StreamId> for Resp` (`src/resp.rs` lines 378-385): the bulk
string `"m-s"`. -/
def Resp.fromStreamId (id : StreamId) : Resp :=
  .bulkString ⟨natToDec id.milliseconds ++ '-' :: natToDec id.sequence_number⟩

/-- The per-entry serialization of `Stream::range`'s map step: field name
then value for every pair, in order; `none` models the `unwrap()` panic
when a value is not frame-convertible. -/
def rangeFields : List (String × Value) → Option (List Resp)
  | [] => some []
  | (k, v) :: rest =>
      match Value.tryIntoResp v with
      | .error _ => none
      | .ok r =>
          match rangeFields rest with
          | none => none
          | some tl => some (.bulkString k :: r :: tl)

/-- The entry list serialization of `Stream::range`: each entry becomes
`[idFrame, Array [field, value, …]]`. -/
def rangeEntries : Strm → Option (List Resp)
  | [] => some []
  | (id, fields) :: rest =>
      match rangeFields fields with
      | none => none
      | some inner =>
          match rangeEntries rest with
          | none => none
          | some tl => some (.array [Resp.fromStreamId id, .array inner] :: tl)

/-- `Stream::range` (`src/data/stream.rs` lines 209-248).  Faithful to the
source, including the bug on line 221: the fallback for the `to` bound
inspects `from.expect_bulk_string()` — not `to` — when testing for `"+"`. -/
def Strm.range (s : Strm) (fr toR : Resp) : Except StreamError Resp :=
  let fromRes : Except StreamError StreamId :=
    match StreamId.tryFromResp fr with
    | .ok id => .ok id
    | .error e =>
        match fr.expect_bulk_string with
        | none => .error .mallformedStreamId
        | some k => if k.data = ['-'] then .ok StreamId.MIN else .error e
  match fromRes with
  | .error e => .error e
  | .ok from_id =>
      let toRes : Except StreamError StreamId :=
        match StreamId.tryFromResp toR with
        | .ok id => .ok id
        | .error e =>
            match fr.expect_bulk_string with
            | none => .error .mallformedStreamId
            | some k => if k.data = ['+'] then .ok StreamId.MAX else .error e
      match toRes with
      | .error e => .error e
      | .ok to_id =>
          match rangeEntries (s.filter (fun en => en.1.isGE from_id && en.1.isLE to_id)) with
          | none => .error .crash
          | some es => .ok (.array es)

/-- Rust `slice::chunks(2)`. -/
def chunks2 : List Resp → List (List Resp)
  | [] => []
  | [a] => [[a]]
  | a :: b :: rest => [a, b] :: chunks2 rest

/-- The field-pair loop of the XADD arm of `Connection::handle_command`
for an *occupied* (existing stream) entry (`src/connection.rs` lines
326-336): each pair is inserted separately, a successful insert replaces
the running id frame with the effective id, an error is recorded (the last
one wins) and the loop continues.  `pair[0].expect_bulk_string().unwrap()`
panics on a non-bulk field name, and `pair[1]` panics on an odd chunk —
both are the `Except.error ()` outcome. -/
def xaddLoopOcc (now : Nat) :
    List (List Resp) → Strm → Resp → Option StreamError →
    Except Unit (Strm × Resp × Option StreamError)
  | [], st, id, err => .ok (st, id, err)
  | pair :: rest, st, id, err =>
      match pair with
      | [a, b] =>
          match a.expect_bulk_string with
          | none => .error ()
          | some k =>
              match st.insert now id k (Value.fromResp b) with
              | .ok (sid, st2) => xaddLoopOcc now rest st2 (Resp.fromStreamId sid) err
              | .error e => xaddLoopOcc now rest st id (some e)
      | _ => .error ()

/-- The field-pair loop of the XADD arm for a *vacant* entry
(`src/connection.rs` lines 341-357): like the occupied loop but chunks of
length ≠ 2 and non-bulk field names are silently skipped. -/
def xaddLoopVac (now : Nat) :
    List (List Resp) → Strm → Resp → Option StreamError →
    Strm × Resp × Option StreamError
  | [], st, id, err => (st, id, err)
  | pair :: rest, st, id, err =>
      match pair with
      | [a, b] =>
          match a.expect_bulk_string with
          | none => xaddLoopVac now rest st id err
          | some k =>
              match st.insert now id k (Value.fromResp b) with
              | .ok (sid, st2) => xaddLoopVac now rest st2 (Resp.fromStreamId sid) err
              | .error e => xaddLoopVac now rest st id (some e)
      | _ => xaddLoopVac now rest st id err

/-- The XADD arm of `Connection::handle_command` (`src/connection.rs`
lines 316-363): `entry` is the current binding of the key (`None` when
vacant).  Returns the reply frame and the value stored back under the key;
`Except.error ()` models the panics (`todo!("error")` when the existing
value is not a stream, and the occupied-loop panics). -/
def xaddStep (now : Nat) (entry : Option Value) (id0 : Resp) (items : List Resp) :
    Except Unit (Resp × Value) :=
  match entry with
  | some (Value.stream st) =>
      match xaddLoopOcc now (chunks2 items) st id0 none with
      | .error e => .error e
      | .ok (st2, id2, err) =>
          .ok ((match err with
                | some e => Resp.simpleError e.msg
                | none => id2), Value.stream st2)
  | some _ => .error ()
  | none =>
      let r := xaddLoopVac now (chunks2 items) [] id0 none
      .ok ((match r.2.2 with
            | some e => Resp.simpleError e.msg
            | none => r.2.1), Value.stream r.1)

theorem mem_of_getLast?_eq {α : Type} {l : List α} {a : α} (h : l.getLast? = some a) :
    a ∈ l := by
  have hx : a ∈ l.getLast? := by rw [h]; rfl
  obtain ⟨hne, rfl⟩ := List.mem_getLast?_eq_getLast hx
  exact List.getLast_mem hne

theorem splitOnce_append (sep : Char) (l r : List Char) (h : sep ∉ l) :
    splitOnce sep (l ++ sep :: r) = some (l, r) := by
  induction l with
  | nil => simp [splitOnce]
  | cons x xs ih =>
      have hx : x ≠ sep := by rintro rfl; exact h (List.mem_cons_self _ xs)
      have hxs : sep ∉ xs := fun hm => h (List.mem_cons_of_mem x hm)
      simp [splitOnce, hx, ih hxs]

theorem dash_not_mem_natToDec (n : Nat) : '-' ∉ natToDec n :=
  not_mem_natToDec n (by decide)

theorem natToDec_ne_star (n : Nat) : natToDec n ≠ ['*'] := by
  intro h
  have : '*' ∈ natToDec n := by rw [h]; exact List.mem_cons_self _ _
  have := natToDec_all_digit n '*' this
  simp [isDigitCh] at this

theorem tryFromResp_explicit (a b : Nat) :
    StreamId.tryFromResp (Resp.bulkString ⟨natToDec a ++ '-' :: natToDec b⟩)
      = .ok ⟨a, b⟩ := by
  unfold StreamId.tryFromResp
  simp only [Resp.expect_bulk_string]
  simp only [splitOnce_append '-' _ _ (dash_not_mem_natToDec a)]
  simp only [if_neg (natToDec_ne_star b), parseDecNat_natToDec]

theorem tryFromResp_star (ms : Nat) :
    StreamId.tryFromResp (Resp.bulkString ⟨natToDec ms ++ ['-', '*']⟩)
      = .error (.shouldGenerateSequenceNumber ms) := by
  unfold StreamId.tryFromResp
  simp only [Resp.expect_bulk_string]
  simp only [splitOnce_append '-' _ _ (dash_not_mem_natToDec ms)]
  simp only [if_pos rfl, parseDecNat_natToDec]
  simp

theorem cmp_gt_of_lt {x y : StreamId} (h : StreamId.cmp x y = .lt) :
    StreamId.cmp y x = .gt := by
  unfold StreamId.cmp at h ⊢
  rcases hms : compare x.milliseconds y.milliseconds with hlt | heq | hgt <;>
      rw [hms] at h
  · rw [Nat.compare_eq_lt] at hms
    rw [(Nat.compare_eq_gt).mpr hms]
  · rw [Nat.compare_eq_eq] at hms
    rw [(Nat.compare_eq_eq).mpr hms.symm]
    rw [Nat.compare_eq_lt] at h
    rw [(Nat.compare_eq_gt).mpr h]
  · cases h

theorem cmp_ne_of_lt {x y : StreamId} (h : StreamId.cmp x y = .lt) : x ≠ y := by
  rintro rfl
  unfold StreamId.cmp at h
  rcases hms : compare x.milliseconds x.milliseconds with hlt | heq | hgt <;>
      rw [hms] at h
  · rw [Nat.compare_eq_lt] at hms
    omega
  · rw [Nat.compare_eq_lt] at h
    omega
  · cases h

theorem isLE_false_of_lt {x y : StreamId} (h : StreamId.cmp y x = .lt) :
    StreamId.isLE x y = false := by
  unfold StreamId.isLE
  rw [cmp_gt_of_lt h]
  rfl

theorem entryInsert_append (st : Strm) (id : StreamId) (k : String) (v : Value)
    (h : ∀ en ∈ st, en.1 ≠ id) :
    entryInsert st id k v = st ++ [(id, [(k, v)])] := by
  unfold entryInsert
  rw [if_neg ?_]
  simp only [List.any_eq_true, not_exists, not_and]
  intro en hen
  simp [h en hen]

/-- C7 (amended): for XADD with an id of the form `a-*`, the autogenerated
sequence number is one more than that of the *first* entry whose
milliseconds equal `a` (the source uses `find`, not the last such entry);
when no entry has milliseconds `a` it is 1 for `a = 0` and 0 otherwise.
The insert then proceeds with that id through the usual 0-0 and
monotonicity checks. -/
theorem C7_autogen_seq (now ms : Nat) (st : Strm) (k : String) (v : Value) :
    Strm.insert st now (Resp.bulkString ⟨natToDec ms ++ ['-', '*']⟩) k v
      = (let q : Nat :=
           match st.find? (fun en => en.1.milliseconds == ms) with
           | some en => en.1.sequence_number + 1
           | none => if ms = 0 then 1 else 0
         let id : StreamId := ⟨ms, q⟩
         if id.is_zero then Except.error StreamError.zeroStreamId
         else
           match st.getLast? with
           | some last =>
               if id.isLE last.1 then Except.error StreamError.invalidStreamId
               else Except.ok (id, entryInsert st id k v)
           | none => Except.ok (id, entryInsert st id k v)) := by
  unfold Strm.insert
  simp only [tryFromResp_star]

/-- C7 counterexample: with entries 1-1 and 1-2 in the stream, XADD `1-*`
does not autogenerate sequence number 3 (= last matching entry + 1, as the
claim states) and insert at 1-3: the source takes the *first* entry with
milliseconds 1, generates 1-2, and the insert then fails with the
equal-or-smaller error. -/
theorem C7_autogen_seq_counterexample :
    (do
      let r1 ← Strm.insert [] 0 (Resp.bulkString "1-1") "f" (Value.str "v")
      let r2 ← Strm.insert r1.2 0 (Resp.bulkString "1-2") "f" (Value.str "v")
      Strm.insert r2.2 0 (Resp.bulkString "1-*") "f" (Value.str "v"))
      = .error StreamError.invalidStreamId := rfl

theorem insert_explicit_gt (now a b : Nat) (st : Strm) (k : String) (v : Value)
    (hnz : ¬(a = 0 ∧ b = 0))
    (hall : ∀ en ∈ st, StreamId.cmp en.1 ⟨a, b⟩ = .lt) :
    Strm.insert st now (Resp.bulkString ⟨natToDec a ++ '-' :: natToDec b⟩) k v
      = .ok (⟨a, b⟩, st ++ [(⟨a, b⟩, [(k, v)])]) := by
  have hz : StreamId.is_zero ⟨a, b⟩ = false := by
    simp only [StreamId.is_zero]
    simp
    omega
  unfold Strm.insert
  simp only [tryFromResp_explicit, hz, Bool.false_eq_true, if_false]
  cases hl : st.getLast? with
  | none =>
      have hnil : st = [] := List.getLast?_eq_none.mp hl
      subst hnil
      simp [entryInsert]
  | some last =>
      have hmem := mem_of_getLast?_eq hl
      have hlt := hall last hmem
      simp only [isLE_false_of_lt hlt, Bool.false_eq_true, if_false,
        entryInsert_append st ⟨a, b⟩ k v (fun en hen => cmp_ne_of_lt (hall en hen))]

theorem insert_explicit_le (now a b : Nat) (st : Strm) (k : String) (v : Value)
    (hnz : ¬(a = 0 ∧ b = 0)) (last : StreamId × List (String × Value))
    (hlast : st.getLast? = some last)
    (hle : StreamId.isLE ⟨a, b⟩ last.1 = true) :
    Strm.insert st now (Resp.bulkString ⟨natToDec a ++ '-' :: natToDec b⟩) k v
      = .error StreamError.invalidStreamId := by
  have hz : StreamId.is_zero ⟨a, b⟩ = false := by
    simp only [StreamId.is_zero]
    simp
    omega
  unfold Strm.insert
  simp only [tryFromResp_explicit, hz, Bool.false_eq_true, if_false, hlast, hle, if_true]

/-- C6 (amended): for XADD with an explicit nonzero id `a-b` and exactly
one field-value pair: if every entry of the existing stream has a smaller
id, the pair is appended as a fresh entry under `a-b` and the reply is the
id as BulkString `"a-b"`; if the id is ≤ the stream's last id the reply is
the stated SimpleError and the stream value is unchanged; on a vacant key
a fresh one-entry stream is created.  (With two or more pairs the source
inserts each pair separately and every pair after the first fails — see
the counterexample.) -/
theorem C6_xadd_single_pair (now a b : Nat) (st : Strm) (fk : String) (fv : Resp)
    (hnz : ¬(a = 0 ∧ b = 0)) :
    ((∀ en ∈ st, StreamId.cmp en.1 ⟨a, b⟩ = .lt) →
        xaddStep now (some (Value.stream st))
            (Resp.bulkString ⟨natToDec a ++ '-' :: natToDec b⟩)
            [Resp.bulkString fk, fv]
          = .ok (Resp.fromStreamId ⟨a, b⟩,
              Value.stream (st ++ [(⟨a, b⟩, [(fk, Value.fromResp fv)])])))
    ∧ (∀ last, st.getLast? = some last → StreamId.isLE ⟨a, b⟩ last.1 = true →
        xaddStep now (some (Value.stream st))
            (Resp.bulkString ⟨natToDec a ++ '-' :: natToDec b⟩)
            [Resp.bulkString fk, fv]
          = .ok (Resp.simpleError StreamError.invalidStreamId.msg, Value.stream st))
    ∧ xaddStep now none (Resp.bulkString ⟨natToDec a ++ '-' :: natToDec b⟩)
          [Resp.bulkString fk, fv]
        = .ok (Resp.fromStreamId ⟨a, b⟩,
            Value.stream [(⟨a, b⟩, [(fk, Value.fromResp fv)])]) := by
  refine ⟨?_, ?_, ?_⟩
  · intro hall
    have hins := insert_explicit_gt now a b st fk (Value.fromResp fv) hnz hall
    simp only [xaddStep, chunks2, xaddLoopOcc, Resp.expect_bulk_string, hins]
  · intro last hlast hle
    have hins := insert_explicit_le now a b st fk (Value.fromResp fv) hnz last hlast hle
    simp only [xaddStep, chunks2, xaddLoopOcc, Resp.expect_bulk_string, hins]
  · have hins := insert_explicit_gt now a b [] fk (Value.fromResp fv) hnz (by simp)
    simp only [xaddStep, chunks2, xaddLoopVac, Resp.expect_bulk_string, hins]
    rfl

theorem C6_xadd_single_pair_witness :
    xaddStep 0 (some (Value.stream [])) (Resp.bulkString "5-5")
        [Resp.bulkString "f1", Resp.bulkString "v1"]
      = .ok (Resp.fromStreamId ⟨5, 5⟩,
          Value.stream [(⟨5, 5⟩, [("f1", Value.str "v1")])]) := by
  have h := (C6_xadd_single_pair 0 5 5 [] "f1" (Resp.bulkString "v1") (by omega)).1
    (by simp)
  have harg : (Resp.bulkString "5-5")
      = Resp.bulkString ⟨natToDec 5 ++ '-' :: natToDec 5⟩ := by decide
  rw [harg]
  simpa using h

/-- C6 counterexample: XADD of id 5-5 with *two* field-value pairs on a
fresh key does not store both pairs and reply `"5-5"`: the second insert
fails (5-5 is no longer greater than the top id) and the reply is the
equal-or-smaller SimpleError, while only the first pair was stored. -/
theorem C6_xadd_single_pair_counterexample :
    xaddStep 0 none (Resp.bulkString "5-5")
        [Resp.bulkString "f1", Resp.bulkString "v1",
         Resp.bulkString "f2", Resp.bulkString "v2"]
      = .ok (Resp.simpleError
          "ERR The ID specified in XADD is equal or smaller than the target stream top item",
          Value.stream [(⟨5, 5⟩, [("f1", Value.str "v1")])]) := rfl

theorem rangeFields_ok (fs : List (String × Value))
    (h : ∀ p ∈ fs, (Value.tryIntoResp p.2).isOk = true) :
    rangeFields fs
      = some ((fs.map (fun p =>
          [Resp.bulkString p.1,
           (Value.tryIntoResp p.2).toOption.getD (Resp.array [])])).join) := by
  induction fs with
  | nil => rfl
  | cons p rest ih =>
      obtain ⟨k, v⟩ := p
      have hp := h (k, v) (List.mem_cons_self _ _)
      cases hv : Value.tryIntoResp v with
      | error e =>
          rw [hv] at hp
          simp [Except.isOk, Except.toBool] at hp
      | ok r =>
          simp only [rangeFields, hv,
            ih (fun q hq => h q (List.mem_cons_of_mem _ hq))]
          simp [Except.toOption, hv]

theorem rangeEntries_ok (s : Strm)
    (h : ∀ en ∈ s, ∀ p ∈ en.2, (Value.tryIntoResp p.2).isOk = true) :
    rangeEntries s = some (s.map (fun en =>
      Resp.array [Resp.fromStreamId en.1,
        Resp.array ((en.2.map (fun p =>
          [Resp.bulkString p.1,
           (Value.tryIntoResp p.2).toOption.getD (Resp.array [])])).join)])) := by
  induction s with
  | nil => rfl
  | cons en rest ih =>
      obtain ⟨id, fields⟩ := en
      simp only [rangeEntries,
        rangeFields_ok fields (h (id, fields) (List.mem_cons_self _ _)),
        ih (fun e he p hp => h e (List.mem_cons_of_mem _ he) p hp)]
      simp

/-- C8 (amended): in `Stream::range` a start of `"-"` does denote the
minimum id, and for a start and end that parse as explicit `a-b` ids the
reply is exactly the entries with start ≤ id ≤ end, in stream (ascending)
order, each as `[idFrame, Array [field, value, …]]`.  An end of `"+"` is
*rejected* with the malformed-id error (the fallback inspects the start
operand instead of the end — `src/data/stream.rs` line 221), as is a plain
id without `-b` in either position; see the counterexample. -/
theorem C8_xrange_bounds (st : Strm) (fr toR : Resp) (fid tid : StreamId)
    (hfr : StreamId.tryFromResp fr = .ok fid
        ∨ (fr = Resp.bulkString "-" ∧ fid = StreamId.MIN))
    (hto : StreamId.tryFromResp toR = .ok tid)
    (hok : ∀ en ∈ st, ∀ p ∈ en.2, (Value.tryIntoResp p.2).isOk = true) :
    Strm.range st fr toR = .ok (Resp.array
      ((st.filter (fun en => en.1.isGE fid && en.1.isLE tid)).map (fun en =>
        Resp.array [Resp.fromStreamId en.1,
          Resp.array ((en.2.map (fun p =>
            [Resp.bulkString p.1,
             (Value.tryIntoResp p.2).toOption.getD (Resp.array [])])).join)]))) := by
  have hfilter : ∀ en ∈ st.filter (fun en => en.1.isGE fid && en.1.isLE tid),
      ∀ p ∈ en.2, (Value.tryIntoResp p.2).isOk = true :=
    fun en hen => hok en (List.mem_of_mem_filter hen)
  unfold Strm.range
  rcases hfr with hfr | ⟨hfr, hfd⟩
  · simp only [hfr, hto, rangeEntries_ok _ hfilter]
  · subst hfr
    subst hfd
    have hd : StreamId.tryFromResp (Resp.bulkString "-")
        = .error .mallformedStreamId := rfl
    simp only [hd, hto, Resp.expect_bulk_string]
    simp only [if_true, rangeEntries_ok _ hfilter]

theorem C8_xrange_bounds_witness :
    Strm.range [(⟨1, 1⟩, [("f", Value.str "v")]), (⟨2, 0⟩, [("g", Value.str "w")])]
        (Resp.bulkString "-") (Resp.bulkString "1-5")
      = .ok (Resp.array [Resp.array [Resp.fromStreamId ⟨1, 1⟩,
          Resp.array [Resp.bulkString "f", Resp.bulkString "v"]]]) := by
  have h := C8_xrange_bounds
    [(⟨1, 1⟩, [("f", Value.str "v")]), (⟨2, 0⟩, [("g", Value.str "w")])]
    (Resp.bulkString "-") (Resp.bulkString "1-5") StreamId.MIN ⟨1, 5⟩
    (Or.inr ⟨rfl, rfl⟩) rfl (by decide)
  rw [h]
  rfl

/-- C8 counterexample: with one entry 1-1 in the stream, `XRANGE - +`
does not return the entries — it fails with the malformed-stream-id error
because the `"+"` fallback inspects the *start* operand; a plain id `1`
used as start fails the same way instead of meaning `(1, 0)`. -/
theorem C8_xrange_bounds_counterexample :
    Strm.range [(⟨1, 1⟩, [("f", Value.str "v")])]
        (Resp.bulkString "-") (Resp.bulkString "+")
      = .error StreamError.mallformedStreamId
    ∧ Strm.range [(⟨1, 1⟩, [("f", Value.str "v")])]
        (Resp.bulkString "1") (Resp.bulkString "1-2")
      = .error StreamError.mallformedStreamId := ⟨rfl, rfl⟩

/-- The keyspace (`HashMap<Resp, Value>`): modelled observationally as an
association list where an insert shadows any earlier binding of the same
key. -/
abbrev DbMap := List (Resp × Value)

/-- `HashMap::get`. -/
def dbLookup (db : DbMap) (k : Resp) : Option Value :=
  (db.find? (fun p => p.1 == k)).map (fun p => p.2)

/-- `HashMap::insert`. -/
def dbInsert (db : DbMap) (k : Resp) (v : Value) : DbMap := (k, v) :: db

/-- The `Set` arm of `Connection::handle_command` (`src/connection.rs`
lines 154-175): store `key ↦ value` (converted `Resp → Value`) and reply
`Resp::bulk_string("OK")` — a BulkString, not a SimpleString.  The expiry
timer spawned for `PX` is a concurrent side effect that never changes the
reply and is not modelled here. -/
def setStep (db : DbMap) (key value : Resp) (expiry : Option Int) : DbMap × Resp :=
  (dbInsert db key (Value.fromResp value), Resp.bulk_string "OK")

/-- The `Get` arm of `Connection::handle_command` (`src/connection.rs`
lines 146-153): the stored value — defaulting to `Str ""` when the key is
absent — converted back to a frame with `try_into` (an error when the
value is not frame-convertible). -/
def getReply (db : DbMap) (key : Resp) : Except RespErr Resp :=
  ((dbLookup db key).getD (Value.str "")).tryIntoResp

/-- C9 (amended): the reply of SET — with or without PX — is the
*BulkString* `"OK"`, whose wire encoding is the 8 bytes `$2\r\nOK\r\n`
(not the SimpleString `+OK\r\n` the claim states). -/
theorem C9_set_reply (db : DbMap) (k v : Resp) (e : Option Int) :
    (setStep db k v e).2 = Resp.bulkString "OK"
    ∧ (setStep db k v e).2.encode = "$2\r\nOK\r\n".data
    ∧ (setStep db k v e).2.encode.length = 8 :=
  ⟨rfl, rfl, rfl⟩

/-- C9 counterexample: the SET reply does not encode to the five bytes
`+OK\r\n`; it encodes to `$2\r\nOK\r\n`. -/
theorem C9_set_reply_counterexample :
    (setStep [] (Resp.bulkString "k") (Resp.bulkString "v") none).2.encode
      ≠ "+OK\r\n".data := by decide

/-- C10 (confirmed): storing the empty string is indistinguishable from
absence at the public interface — after `SET k ""`, `GET k` replies with
the null bulk `$-1\r\n` (the encoder maps every empty BulkString to the
null form), and `GET` of a missing key produces the very same bytes (the
missing key defaults to `Str ""` before encoding). -/
theorem C10_empty_equals_missing (db : DbMap) (k : Resp) :
    (getReply (setStep db k (Resp.bulkString "") none).1 k).map Resp.encode
      = .ok "$-1\r\n".data
    ∧ (dbLookup db k = none →
        (getReply db k).map Resp.encode = .ok "$-1\r\n".data) := by
  constructor
  · have h1 : dbLookup (setStep db k (Resp.bulkString "") none).1 k
        = some (Value.str "") := by
      simp [setStep, dbInsert, dbLookup, Value.fromResp]
    simp only [getReply, h1]
    decide
  · intro h
    simp only [getReply, h]
    decide

theorem C10_empty_equals_missing_witness :
    ((getReply (setStep [] (Resp.bulkString "foo") (Resp.bulkString "") none).1
        (Resp.bulkString "foo")).map Resp.encode = .ok "$-1\r\n".data)
    ∧ (dbLookup ([] : DbMap) (Resp.bulkString "foo") = none
      ∧ (getReply [] (Resp.bulkString "foo")).map Resp.encode = .ok "$-1\r\n".data) :=
  ⟨(C10_empty_equals_missing [] (Resp.bulkString "foo")).1,
   ⟨rfl, (C10_empty_equals_missing [] (Resp.bulkString "foo")).2 rfl⟩⟩
